import Mathlib

/-!
Verification of the AtlasRAG SQL-RAG orchestrator core
(`backend/app/services/sql_orchestrator.py`, `backend/app/services/rag.py`,
`backend/app/application/services/rag.py`) against its natural-language
specification.

The Python code is shallowly embedded: strings become `List Char` / `String`,
the handful of regular expressions used by the code are embedded as dedicated
scanners with Python `re` semantics (case-insensitive word matching,
leftmost non-overlapping matches for `findall`/`finditer`/`sub`), Python
truthiness on optional integers/strings is made explicit, and external
collaborators (the LLM endpoints, the target database driver, decryption)
are oracles supplied as explicit function parameters.  Only ASCII inputs are
modelled (the SQL surface of the code under verification is ASCII).
-/

namespace AtlasRAG

/-! ### Character classes (Python `re` ASCII semantics) -/

/-- Python `\w` on the ASCII range: letters, digits and underscore. -/
def isWordChar (c : Char) : Bool :=
  c.isAlpha || c.isDigit || c = '_'

/-- Python `\s` on the ASCII range. -/
def isSpaceChar (c : Char) : Bool :=
  c = ' ' || c = '\t' || c = '\n' || c = '\r' || c = '\x0b' || c = '\x0c'

def isDigitChar (c : Char) : Bool := c.isDigit

/-- ASCII lowercasing, as `str.lower()` does on the ASCII inputs we model. -/
def lowerChar (c : Char) : Char := c.toLower

def lowerStr (s : List Char) : List Char := s.map lowerChar

/-- Case-insensitive character comparison. -/
def ciEq (a b : Char) : Bool := lowerChar a = lowerChar b

/-! ### Python string helpers -/

/-- `str.strip()` : drop leading and trailing whitespace. -/
def pyStrip (s : List Char) : List Char :=
  ((s.dropWhile isSpaceChar).reverse.dropWhile isSpaceChar).reverse

/-- `str.rstrip(";")` : drop the whole trailing run of semicolons. -/
def pyRstripSemi (s : List Char) : List Char :=
  (s.reverse.dropWhile (fun c => c = ';')).reverse

/-- `prefix.lower() == s[:n].lower()`? Returns the rest of `s` on success. -/
def dropCI : List Char → List Char → Option (List Char)
  | [], s => some s
  | _ :: _, [] => none
  | p :: ps, c :: cs => if ciEq p c then dropCI ps cs else none

/-- Left word-boundary test relative to the previous character. -/
def boundaryL (prev : Option Char) : Bool :=
  match prev with
  | none => true
  | some c => !isWordChar c

/-- Right word-boundary test at the start of `rest`. -/
def boundaryR (rest : List Char) : Bool :=
  match rest with
  | [] => true
  | c :: _ => !isWordChar c

/-- Does the word `kw` occur (case-insensitively, `\b`-delimited on both
sides) at the very start of `s`, given previous character `prev`? -/
def wordAt (kw : List Char) (prev : Option Char) (s : List Char) : Bool :=
  boundaryL prev &&
    match dropCI kw s with
    | some rest => boundaryR rest
    | none => false

/-- Generic regex-search driver: try the boolean matcher at every suffix,
threading the preceding character for `\b` tests.  Mirrors `re.search`
returning truthiness only. -/
def searchB (m : Option Char → List Char → Bool) : Option Char → List Char → Bool
  | prev, [] => m prev []
  | prev, c :: rest => m prev (c :: rest) || searchB m (some c) rest

/-- `re.search(r"\b<kw>\b", s, re.IGNORECASE)` truthiness for a fixed word. -/
def containsWordCI (kw : String) (s : List Char) : Bool :=
  searchB (wordAt kw.data) none s

/-! ### The validator regexes -/

/-- `FORBIDDEN_KEYWORDS` alternatives. -/
def forbiddenKeywordList : List String :=
  ["insert", "update", "delete", "upsert", "merge", "drop", "alter",
   "create", "grant", "revoke", "truncate", "copy", "execute", "call"]

/-- `FORBIDDEN_KEYWORDS.search(s)` truthiness. -/
def forbiddenKeywordSearch (s : List Char) : Bool :=
  forbiddenKeywordList.any (fun kw => containsWordCI kw s)

/-- `FORBIDDEN_FUNCTIONS` alternatives. -/
def forbiddenFunctionList : List String :=
  ["pg_read_file", "pg_ls_dir", "pg_sleep", "dblink", "lo_export", "lo_import"]

/-- `FORBIDDEN_FUNCTIONS.search(s)` truthiness. -/
def forbiddenFunctionSearch (s : List Char) : Bool :=
  forbiddenFunctionList.any (fun kw => containsWordCI kw s)

/-- Matcher for `\bselect\b[\s\S]+?\binto\b` starting at the current suffix:
a `\b`-delimited `select` here followed, at least one character later, by a
`\b`-delimited `into`. -/
def selectIntoAt (prev : Option Char) (s : List Char) : Bool :=
  boundaryL prev &&
    match dropCI "select".data s with
    | some rest =>
        boundaryR rest &&
          match rest with
          | [] => false
          | c :: rest2 => searchB (wordAt "into".data) (some c) rest2
    | none => false

/-- `SELECT_INTO_PATTERN.search(s)` truthiness. -/
def selectIntoSearch (s : List Char) : Bool :=
  searchB selectIntoAt none s

/-- Matcher for `\bfor\s+(update|share)\b` at the current suffix. -/
def forUpdateAt (prev : Option Char) (s : List Char) : Bool :=
  boundaryL prev &&
    match dropCI "for".data s with
    | some rest =>
        let sp := rest.takeWhile isSpaceChar
        let rest2 := rest.dropWhile isSpaceChar
        !sp.isEmpty &&
          ((match dropCI "update".data rest2 with
            | some rest3 => boundaryR rest3
            | none => false) ||
           (match dropCI "share".data rest2 with
            | some rest3 => boundaryR rest3
            | none => false))
    | none => false

/-- `FOR_UPDATE_PATTERN.search(s)` truthiness. -/
def forUpdateSearch (s : List Char) : Bool :=
  searchB forUpdateAt none s

/-! ### `findall` / `finditer` style scanning -/

/-- Generic leftmost non-overlapping scan (the semantics of `re.findall` /
`re.finditer`): try the matcher at each suffix; on a match consume the
matched characters and continue after them, otherwise advance one
character.  `fuel` is initialised with the string length, which suffices
because every step consumes at least one character. -/
def scanAll {α : Type} (m : Option Char → List Char → Option (Nat × α)) :
    Nat → Option Char → List Char → List α
  | 0, _, _ => []
  | _ + 1, _, [] => []
  | fuel + 1, prev, c :: rest =>
    match m prev (c :: rest) with
    | some (n, a) =>
      let k := max n 1
      a :: scanAll m fuel (((c :: rest).take k).getLast?) ((c :: rest).drop k)
    | none => scanAll m fuel (some c) rest

/-- Characters admitted by `FROM_JOIN_PATTERN`'s second group
`[a-zA-Z0-9_".]+`. -/
def isTableTokenChar (c : Char) : Bool :=
  c.isAlpha || c.isDigit || c = '_' || c = '"' || c = '.'

/-- Tail of `FROM_JOIN_PATTERN` after the keyword: `\s+` then the greedy
table-token group.  Returns the total consumed length and the token. -/
def fromJoinTail (kwLen : Nat) (rest : List Char) : Option (Nat × List Char) :=
  let sp := rest.takeWhile isSpaceChar
  let rest2 := rest.dropWhile isSpaceChar
  if sp.isEmpty then none
  else
    let tok := rest2.takeWhile isTableTokenChar
    if tok.isEmpty then none else some (kwLen + sp.length + tok.length, tok)

/-- One attempted match of `FROM_JOIN_PATTERN`
(`\b(from|join)\s+([a-zA-Z0-9_".]+)`, case-insensitive) at the current
position. -/
def fromJoinMatchAt (prev : Option Char) (s : List Char) : Option (Nat × List Char) :=
  if boundaryL prev then
    match dropCI "from".data s with
    | some rest => fromJoinTail 4 rest
    | none =>
      match dropCI "join".data s with
      | some rest => fromJoinTail 4 rest
      | none => none
  else none

/-- `str.rstrip(",")`. -/
def pyRstripComma (s : List Char) : List Char :=
  (s.reverse.dropWhile (fun c => c = ',')).reverse

/-- `_normalize_identifier`: `value.strip().strip('"').lower()`. -/
def normalizeIdentifier (s : List Char) : List Char :=
  let t := pyStrip s
  let t := t.dropWhile (fun c => c = '"')
  let t := (t.reverse.dropWhile (fun c => c = '"')).reverse
  lowerStr t

/-- `_extract_table_names`: collect the second capture group of every
`FROM_JOIN_PATTERN` match, strip commas/quotes, lowercase, drop empties.
(The captured token contains no whitespace, so `.split()[0]` is the token
itself.) -/
def extractTableNames (s : List Char) : List String :=
  (scanAll fromJoinMatchAt s.length none s).filterMap fun tok =>
    let cleaned := pyRstripComma (pyStrip tok)
    let first := cleaned.takeWhile (fun c => !isSpaceChar c)
    let norm := normalizeIdentifier first
    if norm.isEmpty then none else some (String.mk norm)

/-- Python identifier head `[a-zA-Z_]` followed by `[a-zA-Z0-9_]*`:
returns the identifier characters. -/
def identAt (s : List Char) : Option (List Char) :=
  match s with
  | [] => none
  | c :: cs => if c.isAlpha || c = '_' then some (c :: cs.takeWhile isWordChar) else none

/-- One attempted match of `CTE_NAME_PATTERN`
(`\bwith\s+([a-zA-Z_][a-zA-Z0-9_]*)\s+as\s*\(`, case-insensitive). -/
def cteNameMatchAt (prev : Option Char) (s : List Char) : Option (Nat × List Char) :=
  if boundaryL prev then
    match dropCI "with".data s with
    | some rest =>
      let sp1 := rest.takeWhile isSpaceChar
      let rest2 := rest.dropWhile isSpaceChar
      if sp1.isEmpty then none
      else
        match identAt rest2 with
        | some ident =>
          let rest3 := rest2.drop ident.length
          let sp2 := rest3.takeWhile isSpaceChar
          let rest4 := rest3.dropWhile isSpaceChar
          if sp2.isEmpty then none
          else
            match dropCI "as".data rest4 with
            | some rest5 =>
              let sp3 := rest5.takeWhile isSpaceChar
              let rest6 := rest5.dropWhile isSpaceChar
              match rest6 with
              | '(' :: _ =>
                some (4 + sp1.length + ident.length + sp2.length + 2 + sp3.length + 1, ident)
              | _ => none
            | none => none
        | none => none
    | none => none
  else none

/-- One attempted match of `FOLLOWING_CTE_PATTERN`
(`\)\s*,\s*([a-zA-Z_][a-zA-Z0-9_]*)\s+as\s*\(`, case-insensitive). -/
def followingCteMatchAt (_prev : Option Char) (s : List Char) : Option (Nat × List Char) :=
  match s with
  | ')' :: rest =>
    let sp1 := rest.takeWhile isSpaceChar
    let rest2 := rest.dropWhile isSpaceChar
    match rest2 with
    | ',' :: rest3 =>
      let sp2 := rest3.takeWhile isSpaceChar
      let rest4 := rest3.dropWhile isSpaceChar
      match identAt rest4 with
      | some ident =>
        let rest5 := rest4.drop ident.length
        let sp3 := rest5.takeWhile isSpaceChar
        let rest6 := rest5.dropWhile isSpaceChar
        if sp3.isEmpty then none
        else
          match dropCI "as".data rest6 with
          | some rest7 =>
            let sp4 := rest7.takeWhile isSpaceChar
            let rest8 := rest7.dropWhile isSpaceChar
            match rest8 with
            | '(' :: _ =>
              some (1 + sp1.length + 1 + sp2.length + ident.length + sp3.length + 2
                      + sp4.length + 1, ident)
            | _ => none
          | none => none
      | none => none
    | _ => none
  | _ => none

/-- `_extract_cte_names`: group 1 of both CTE patterns, lowercased. -/
def extractCteNames (s : List Char) : List String :=
  ((scanAll cteNameMatchAt s.length none s).map fun ident => String.mk (lowerStr ident)) ++
    ((scanAll followingCteMatchAt s.length none s).map fun ident => String.mk (lowerStr ident))

/-! ### Decimal digits -/

/-- The character for decimal digit `d` (`d < 10`). -/
def digitChar (d : Nat) : Char :=
  if d = 0 then '0' else if d = 1 then '1' else if d = 2 then '2'
  else if d = 3 then '3' else if d = 4 then '4' else if d = 5 then '5'
  else if d = 6 then '6' else if d = 7 then '7' else if d = 8 then '8' else '9'

/-- Fuel-driven decimal printer (structural recursion so that concrete
instances reduce). -/
def natDigitsAux : Nat → Nat → List Char → List Char
  | 0, _, acc => acc
  | fuel + 1, n, acc =>
    if n < 10 then digitChar n :: acc
    else natDigitsAux fuel (n / 10) (digitChar (n % 10) :: acc)

/-- Decimal digit characters of `n`, as Python string formatting produces. -/
def natDigits (n : Nat) : List Char := natDigitsAux (n + 1) n []

/-- Value of a decimal digit run, as Python `int` parses it. -/
def digitsVal (ds : List Char) : Nat :=
  ds.foldl (fun a c => a * 10 + (c.toNat - 48)) 0

/-! ### The LIMIT pattern and `_ensure_limit` -/

/-- The group of `\blimit\s+(\d+|:[a-zA-Z_][a-zA-Z0-9_]*|all)\b`,
carrying the matched characters. -/
inductive LimitArg where
  | num (ds : List Char)
  | bnd (cs : List Char)
  | all (cs : List Char)
deriving DecidableEq

def LimitArg.chars : LimitArg → List Char
  | .num ds => ds
  | .bnd cs => cs
  | .all cs => cs

/-- Group alternative `\d+` with trailing `\b`. -/
def tryNumArg (rest2 : List Char) : Option LimitArg :=
  let ds := rest2.takeWhile isDigitChar
  if ds.isEmpty then none
  else if boundaryR (rest2.dropWhile isDigitChar) then some (.num ds) else none

/-- Group alternative `:[a-zA-Z_][a-zA-Z0-9_]*` with trailing `\b`
(the `\b` test always succeeds after the greedy identifier run and is
kept explicit). -/
def tryBndArg : List Char → Option LimitArg
  | c0 :: c :: cs =>
    if c0 = ':' then
      if c.isAlpha || c = '_' then
        if boundaryR (cs.dropWhile isWordChar) then
          some (.bnd (c0 :: c :: cs.takeWhile isWordChar))
        else none
      else none
    else none
  | _ => none

/-- Group alternative `all` (case-insensitive) with trailing `\b`. -/
def tryAllArg (rest2 : List Char) : Option LimitArg :=
  match dropCI "all".data rest2 with
  | some rest3 => if boundaryR rest3 then some (.all (rest2.take 3)) else none
  | none => none

/-- Try the three group alternatives in the pattern's order.  (When the
digit run is non-empty but its trailing `\b` fails, the other two
alternatives fail as well, so the ordered chain matches the regex.) -/
def limitArgAt (rest2 : List Char) : Option LimitArg :=
  match tryNumArg rest2 with
  | some a => some a
  | none =>
    match tryBndArg rest2 with
    | some a => some a
    | none => tryAllArg rest2

/-- One attempted match of the LIMIT pattern at the current position:
returns the matched `limit` keyword characters, the whitespace run, the
group, and the rest of the string after the match. -/
def limitMatchAt (prev : Option Char) (s : List Char) :
    Option (List Char × List Char × LimitArg × List Char) :=
  if boundaryL prev then
    match dropCI "limit".data s with
    | some rest =>
      let ws := rest.takeWhile isSpaceChar
      let rest2 := rest.dropWhile isSpaceChar
      if ws.isEmpty then none
      else
        match limitArgAt rest2 with
        | some arg => some (s.take 5, ws, arg, rest2.drop arg.chars.length)
        | none => none
    | none => none
  else none

/-- `re.search` for the LIMIT pattern: the first match's group. -/
def firstLimitArg (prev : Option Char) : List Char → Option LimitArg
  | [] => none
  | c :: cs =>
    match limitMatchAt prev (c :: cs) with
    | some (_, _, arg, _) => some arg
    | none => firstLimitArg (some c) cs

/-- The replacement text `f"LIMIT {limit}"`. -/
def limitRepl (cap : Nat) : List Char := "LIMIT ".data ++ natDigits cap

theorem dropCI_decomp :
    ∀ (p s r : List Char), dropCI p s = some r → s = s.take p.length ++ r ∧ p.length ≤ s.length := by
  intro p
  induction p with
  | nil =>
    intro s r h
    simp only [dropCI, Option.some.injEq] at h
    subst h
    simp
  | cons a ps ih =>
    intro s r h
    cases s with
    | nil => simp [dropCI] at h
    | cons c cs =>
      simp only [dropCI] at h
      split at h
      · obtain ⟨h1, h2⟩ := ih cs r h
        refine ⟨?_, by simpa using h2⟩
        simp only [List.length_cons, List.take_succ_cons, List.cons_append]
        exact congrArg (c :: ·) h1
      · exact absurd h (by simp)

theorem tryNumArg_prefix {rest2 : List Char} {arg : LimitArg}
    (h : tryNumArg rest2 = some arg) : arg.chars <+: rest2 := by
  by_cases hempty : (rest2.takeWhile isDigitChar).isEmpty
  · simp [tryNumArg, hempty] at h
  · by_cases hb : boundaryR (rest2.dropWhile isDigitChar)
    · simp only [tryNumArg, hempty, hb, if_true, if_false, Bool.false_eq_true,
        Option.some.injEq] at h
      rw [← h]
      exact List.takeWhile_prefix _
    · simp [tryNumArg, hempty, hb] at h

theorem tryBndArg_prefix {rest2 : List Char} {arg : LimitArg}
    (h : tryBndArg rest2 = some arg) : arg.chars <+: rest2 := by
  unfold tryBndArg at h
  split at h
  · rename_i c0 c cs
    split at h
    · split at h
      · split at h
        · cases h
          refine ⟨cs.dropWhile isWordChar, ?_⟩
          simp only [LimitArg.chars, List.cons_append, List.takeWhile_append_dropWhile]
        · exact absurd h (by simp)
      · exact absurd h (by simp)
    · exact absurd h (by simp)
  · exact absurd h (by simp)

theorem tryAllArg_prefix {rest2 : List Char} {arg : LimitArg}
    (h : tryAllArg rest2 = some arg) : arg.chars <+: rest2 := by
  unfold tryAllArg at h
  split at h
  · split at h
    · cases h
      exact List.take_prefix _ _
    · exact absurd h (by simp)
  · exact absurd h (by simp)

theorem limitArgAt_prefix {rest2 : List Char} {arg : LimitArg}
    (h : limitArgAt rest2 = some arg) : arg.chars <+: rest2 := by
  unfold limitArgAt at h
  split at h
  · rename_i a ha
    cases h
    exact tryNumArg_prefix ha
  · split at h
    · rename_i a ha
      cases h
      exact tryBndArg_prefix ha
    · exact tryAllArg_prefix h

theorem limitMatchAt_decomp {prev : Option Char} {s kw ws : List Char} {arg : LimitArg}
    {rest : List Char} (h : limitMatchAt prev s = some (kw, ws, arg, rest)) :
    s = kw ++ ws ++ arg.chars ++ rest ∧ kw.length = 5 := by
  unfold limitMatchAt at h
  split at h
  · cases hdrop : dropCI "limit".data s with
    | none => rw [hdrop] at h; exact absurd h (by simp)
    | some rest0 =>
      rw [hdrop] at h
      simp only at h
      split at h
      · exact absurd h (by simp)
      · cases harg : limitArgAt (rest0.dropWhile isSpaceChar) with
        | none => rw [harg] at h; exact absurd h (by simp)
        | some arg0 =>
          rw [harg] at h
          simp only [Option.some.injEq, Prod.mk.injEq] at h
          obtain ⟨hkw, hws, harg2, hrest⟩ := h
          subst hkw hws harg2 hrest
          obtain ⟨hs, hlen⟩ := dropCI_decomp _ _ _ hdrop
          have h5 : ("limit".data).length = 5 := rfl
          rw [h5] at hlen
          have hlen5 : (s.take ("limit".data.length)).length = 5 := by
            rw [List.length_take, h5]
            omega
          have hpre : arg0.chars <+: rest0.dropWhile isSpaceChar := limitArgAt_prefix harg
          have htk : (rest0.dropWhile isSpaceChar).take arg0.chars.length = arg0.chars :=
            (List.prefix_iff_eq_take.mp hpre).symm
          have hrest2 : rest0.dropWhile isSpaceChar
              = arg0.chars ++ (rest0.dropWhile isSpaceChar).drop arg0.chars.length := by
            conv_lhs =>
              rw [← List.take_append_drop arg0.chars.length (rest0.dropWhile isSpaceChar)]
            rw [htk]
          refine ⟨?_, hlen5⟩
          calc s = s.take ("limit".data.length) ++ rest0 := hs
            _ = s.take ("limit".data.length) ++
                  (rest0.takeWhile isSpaceChar ++ rest0.dropWhile isSpaceChar) := by
                  rw [List.takeWhile_append_dropWhile]
            _ = _ := by rw [hrest2]; simp
  · exact absurd h (by simp)

/-- Fuel-driven core of `re.sub` for the LIMIT pattern: replace every
leftmost non-overlapping match with `LIMIT <cap>`, copying other
characters.  Every step consumes at least one character, so fuel equal to
the string length processes the whole string. -/
def substLimitAux (cap : Nat) : Nat → Option Char → List Char → List Char
  | 0, _, s => s
  | fuel + 1, prev, s =>
    match limitMatchAt prev s with
    | some (kw, ws, arg, rest) =>
      limitRepl cap ++ substLimitAux cap fuel ((kw ++ ws ++ arg.chars).getLast?) rest
    | none =>
      match s with
      | [] => []
      | c :: cs => c :: substLimitAux cap fuel (some c) cs

/-- `re.sub` for the LIMIT pattern. -/
def substLimit (cap : Nat) (prev : Option Char) (s : List Char) : List Char :=
  substLimitAux cap s.length prev s

/-- `_ensure_limit`: keep the SQL when the first LIMIT match is numeric and
within the cap; otherwise substitute every LIMIT match; otherwise append
`LIMIT <cap>`. -/
def ensureLimit (s : List Char) (cap : Nat) : List Char :=
  match firstLimitArg none s with
  | some (.num ds) => if digitsVal ds ≤ cap then s else substLimit cap none s
  | some _ => substLimit cap none s
  | none => pyRstripSemi s ++ (" LIMIT ".data ++ natDigits cap)

/-! ### `_validate_sql` -/

/-- Boolean substring test (Python `in` on strings). -/
def isInfixB (p : List Char) : List Char → Bool
  | [] => p.isEmpty
  | c :: cs => List.isPrefixOf p (c :: cs) || isInfixB p cs

/-- Python string `<` (code-point lexicographic) as a Bool. -/
def strLtB (a b : String) : Bool := decide (a < b)

def insertStr (x : String) : List String → List String
  | [] => [x]
  | y :: ys => if strLtB x y then x :: y :: ys else y :: insertStr x ys

def insertionSortStr : List String → List String
  | [] => []
  | x :: xs => insertStr x (insertionSortStr xs)

/-- `sorted(set(xs))` for Python string sets. -/
def pySortedDedup (l : List String) : List String :=
  insertionSortStr l.eraseDups

/-- The rejection reasons of `_validate_sql`, one per `return False` site. -/
inductive VError where
  | multipleStatements
  | notSelect
  | selectInto
  | forUpdateShare
  | forbiddenKeyword
  | forbiddenFunction
  | disallowedTables (missing : List String)
deriving DecidableEq

/-- The `(ok, error_reason, rewritten)` triple of `_validate_sql`. -/
structure VResult where
  ok : Bool
  reason : Option VError
  rewritten : List Char
deriving DecidableEq

/-- The `cleaned` string of `_validate_sql`: whitespace-stripped input with
the whole trailing semicolon run removed. -/
def cleanedOf (sql : String) : List Char :=
  pyRstripSemi (pyStrip sql.data)

/-- The `lowered` string of `_validate_sql`. -/
def loweredOf (sql : String) : List Char :=
  lowerStr (cleanedOf sql)

/-- The `referenced - cte_names` set of `_validate_sql`: names from
`FROM`/`JOIN` tokens minus declared CTE names. -/
def refMinusOf (sql : String) : List String :=
  (extractTableNames (cleanedOf sql)).filter
    (fun n => !(extractCteNames (cleanedOf sql)).contains n)

/-- The `missing` set of `_validate_sql`: referenced minus CTEs minus the
allowlist. -/
def missingOf (sql : String) (allowed : List String) : List String :=
  (refMinusOf sql).filter (fun n => !allowed.contains n)

/-- The `missing_qualified` set of `_validate_sql`: missing names that
contain a dot. -/
def missingQualifiedOf (sql : String) (allowed : List String) : List String :=
  (missingOf sql allowed).filter (fun n => List.contains n.data '.')

/-- `_validate_sql(sql, allowed_tables, max_rows)`.  The Python local
variables `cleaned`, `lowered`, `referenced`, `missing`,
`missing_qualified` are the named functions above. -/
def validateSql (sql : String) (allowed : List String) (maxRows : Nat) : VResult :=
  if (cleanedOf sql).contains ';' then ⟨false, some .multipleStatements, cleanedOf sql⟩
  else if !(List.isPrefixOf "select".data (loweredOf sql) ||
      List.isPrefixOf "with".data (loweredOf sql)) then
    ⟨false, some .notSelect, cleanedOf sql⟩
  else if selectIntoSearch (loweredOf sql) then ⟨false, some .selectInto, cleanedOf sql⟩
  else if forUpdateSearch (loweredOf sql) then ⟨false, some .forUpdateShare, cleanedOf sql⟩
  else if forbiddenKeywordSearch (loweredOf sql) then
    ⟨false, some .forbiddenKeyword, cleanedOf sql⟩
  else if forbiddenFunctionSearch (loweredOf sql) then
    ⟨false, some .forbiddenFunction, cleanedOf sql⟩
  else if !(refMinusOf sql).isEmpty then
    if !(missingOf sql allowed).isEmpty then
      if isInfixB "with".data (loweredOf sql) then
        if !(missingQualifiedOf sql allowed).isEmpty then
          ⟨false, some (.disallowedTables (pySortedDedup (missingQualifiedOf sql allowed))),
            cleanedOf sql⟩
        else ⟨true, none, ensureLimit (cleanedOf sql) maxRows⟩
      else ⟨false, some (.disallowedTables (pySortedDedup (missingOf sql allowed))),
        cleanedOf sql⟩
    else ⟨true, none, ensureLimit (cleanedOf sql) maxRows⟩
  else ⟨true, none, ensureLimit (cleanedOf sql) maxRows⟩

/-- All validator rules before the allowlist check pass: single statement,
SELECT/WITH shape, no SELECT INTO, no FOR UPDATE/SHARE, no forbidden
keyword, no forbidden function. -/
def passesPreTableChecks (sql : String) : Bool :=
  !(cleanedOf sql).contains ';' &&
    (List.isPrefixOf "select".data (loweredOf sql) ||
      List.isPrefixOf "with".data (loweredOf sql)) &&
    !selectIntoSearch (loweredOf sql) &&
    !forUpdateSearch (loweredOf sql) &&
    !forbiddenKeywordSearch (loweredOf sql) &&
    !forbiddenFunctionSearch (loweredOf sql)



/-- The character left of an occurrence that sits after prefix `pre`,
falling back to the scan's own left context when `pre` is empty. -/
def leftCtx (prev : Option Char) (pre : List Char) : Option Char :=
  match pre.getLast? with
  | some c => some c
  | none => prev

/-- A word-bounded numeric LIMIT clause with value at most `cap` occurs
somewhere in `s`, whose left context is `prev`: some decomposition
`pre ++ kw ++ ws ++ ds ++ post` where `kw` spells `limit` case-insensitively
with a word boundary on its left, `ws` is non-empty whitespace, and `ds` is
a non-empty digit run worth at most `cap` with a word boundary on its
right. -/
def numericLimitOccurrenceFrom (cap : Nat) (prev : Option Char) (s : List Char) : Prop :=
  ∃ pre kw ws ds post,
    s = pre ++ kw ++ ws ++ ds ++ post ∧
    lowerStr kw = "limit".data ∧
    ws ≠ [] ∧ ws.all isSpaceChar = true ∧
    ds ≠ [] ∧ ds.all isDigitChar = true ∧
    digitsVal ds ≤ cap ∧
    boundaryL (leftCtx prev pre) = true ∧
    boundaryR post = true

/-- A word-bounded numeric LIMIT with value at most `cap` occurs in `s`. -/
def numericLimitOccurrence (cap : Nat) (s : List Char) : Prop :=
  numericLimitOccurrenceFrom cap none s

/-! ### The heuristic fallback planner (`fallback_plan`) -/

/-- `_normalize_question`: replace every character that is neither a word
character nor whitespace by a space, then lowercase. -/
def normalizeQuestion (q : String) : List Char :=
  lowerStr (q.data.map (fun c => if isWordChar c || isSpaceChar c then c else ' '))

/-- A column dict of the schema context (`col.get("name")`). -/
structure ColumnInfo where
  name : Option String
deriving DecidableEq

/-- A table dict inside a connection entry of the schema context. -/
structure TableEntry where
  schema : Option String
  name : Option String
  columns : List ColumnInfo
deriving DecidableEq

/-- One entry of `schema_context["connections"]`. -/
structure ConnEntry where
  connectionId : Option Nat
  tables : List TableEntry
deriving DecidableEq

/-- `schema_context` as the orchestrator reads it. -/
abbrev SchemaContext := List ConnEntry

/-- A flattened table dict as produced by `_flatten_schema_tables`. -/
structure FlatTable where
  connectionId : Option Nat
  schema : Option String
  name : Option String
  columns : List ColumnInfo
deriving DecidableEq

/-- `_flatten_schema_tables`. -/
def flattenSchemaTables (ctx : SchemaContext) : List FlatTable :=
  (ctx.map (fun conn =>
    conn.tables.map (fun t => FlatTable.mk conn.connectionId t.schema t.name t.columns))).join

/-- Python truthiness of an optional string. -/
def pyStrOpt (s : Option String) : Bool :=
  match s with
  | none => false
  | some str => !(str = "")

/-- Python truthiness of an optional integer (`0` and `None` are falsy). -/
def pyNatOpt (o : Option Nat) : Bool :=
  match o with
  | none => false
  | some n => !(n = 0)

/-- Python `a or b` on optional integers. -/
def pyOrNat (a b : Option Nat) : Option Nat :=
  match a with
  | some n => if n = 0 then b else some n
  | none => b

/-- Case-sensitive `\b`-delimited word occurrence (for
`re.search(rf"\b{name}\b", normalized)`, both sides already lowercased;
the interpolated table name is assumed to carry no regex metacharacters). -/
def containsWordCS (kw : List Char) (s : List Char) : Bool :=
  searchB (fun prev t =>
    boundaryL prev && kw.isPrefixOf t && boundaryR (t.drop kw.length)) none s

/-- `_match_table_candidates`: word-boundary matches of the lowercased
table name in the normalized question first, else substring matches. -/
def matchTableCandidates (q : String) (tables : List FlatTable) : List FlatTable :=
  let normalized := normalizeQuestion q
  let exact := tables.filter (fun t =>
    let nm := lowerStr ((t.name.getD "").data)
    !nm.isEmpty && containsWordCS nm normalized)
  let fuzzy := tables.filter (fun t =>
    let nm := lowerStr ((t.name.getD "").data)
    !nm.isEmpty && !containsWordCS nm normalized && isInfixB nm normalized)
  if exact.isEmpty then fuzzy else exact

/-- The truthy column names of a table. -/
def columnNames (t : FlatTable) : List String :=
  t.columns.filterMap (fun c =>
    match c.name with
    | some n => if n = "" then none else some n
    | none => none)

def preferredColumnCandidates : List String :=
  ["id", "name", "symbol", "ticker", "price", "value", "created_at"]

/-- `_select_columns`. -/
def selectColumns (t : FlatTable) : List String :=
  let columns := columnNames t
  let preferred := preferredColumnCandidates.filter (fun c => columns.contains c)
  if !preferred.isEmpty then preferred.take 4
  else if !columns.isEmpty then columns.take 4
  else ["*"]

def numericColumnCandidates : List String :=
  ["value", "valor", "price", "preco", "amount", "total", "cost", "volume",
   "market_cap", "marketcap"]

/-- `_pick_numeric_column`. -/
def pickNumericColumn (t : FlatTable) : Option String :=
  let columns := columnNames t
  match numericColumnCandidates.find? (fun c => columns.contains c) with
  | some c => some c
  | none => columns.head?

def listOrderCandidates : List String :=
  ["id", "created_at", "updated_at", "timestamp", "date", "data"]

/-- `_pick_order_column`. -/
def pickOrderColumn (t : FlatTable) : Option String :=
  let columns := columnNames t
  match listOrderCandidates.find? (fun c => columns.contains c) with
  | some c => some c
  | none => columns.head?

def listLimitKws : List String := ["cite", "listar", "liste", "mostre", "mostrar"]

/-- One attempted match of `LIST_LIMIT_PATTERN`
(`\b(?:cite|listar|liste|mostre|mostrar)\s+(\d+)\b`, case-insensitive):
returns the captured number. -/
def listLimitAt (prev : Option Char) (s : List Char) : Option Nat :=
  if boundaryL prev then
    match listLimitKws.findSome? (fun kw => dropCI kw.data s) with
    | some rest =>
      let sp := rest.takeWhile isSpaceChar
      let rest2 := rest.dropWhile isSpaceChar
      if sp.isEmpty then none
      else
        let ds := rest2.takeWhile isDigitChar
        if ds.isEmpty then none
        else if boundaryR (rest2.dropWhile isDigitChar) then some (digitsVal ds) else none
    | none => none
  else none

/-- `LIST_LIMIT_PATTERN.search`: the first match's captured number. -/
def listLimitSearch : Option Char → List Char → Option Nat
  | _, [] => none
  | prev, c :: cs =>
    match listLimitAt prev (c :: cs) with
    | some n => some n
    | none => listLimitSearch (some c) cs

/-- `INTENT_LIST_PATTERN` alternatives, with `?`-optional suffixes
expanded. -/
def intentListWords : List String :=
  ["listar", "liste", "listar", "mostrar", "mostre", "citar", "cite",
   "exemplos", "exemplo", "registros", "registro"]

/-- `INTENT_LIST_PATTERN.search` truthiness. -/
def intentListSearch (s : List Char) : Bool :=
  intentListWords.any (fun kw => containsWordCI kw s)

/-- `INTENT_TOP_PATTERN` alternatives, with the `últim[oa]` class
expanded. -/
def intentTopWords : List String :=
  ["maior", "menor", "top", "último", "última", "ultimo", "primeiro",
   "mais caro", "mais barata", "mais alto", "mais baixo"]

/-- `INTENT_TOP_PATTERN.search` truthiness. -/
def intentTopSearch (s : List Char) : Bool :=
  intentTopWords.any (fun kw => containsWordCI kw s)

/-- The five planner decisions. -/
inductive Decision where
  | run_selects
  | use_predefined
  | no_sql_needed
  | need_clarification
  | refuse
deriving DecidableEq

/-- `PlannerQuery` (the `expected_shape`/`safety` payloads carry no
behaviour and are omitted). -/
structure PlannerQuery where
  name : String
  purpose : String
  sql : String
  connection_id : Option Nat
deriving DecidableEq

/-- `PlannerResponse` (the `entities` payload carries no behaviour and is
omitted). -/
structure PlannerResponse where
  decision : Decision
  reason : String
  queries : List PlannerQuery
  predefined_query_id : Option String
  clarifying_question : Option String
deriving DecidableEq

/-- The candidate-table resolution of `fallback_plan`: matched candidates,
or the whole snapshot when it has exactly one table and nothing matched. -/
def fallbackCandidates (q : String) (ctx : SchemaContext) : List FlatTable :=
  let tables := flattenSchemaTables ctx
  let cand0 := matchTableCandidates q tables
  if cand0.isEmpty && tables.length = 1 then tables else cand0

/-- The LIMIT of a fallback listing query: the captured number after the
listing verbs, else 5, capped at `max_rows`. -/
def fallbackLimit (q : String) (maxRows : Nat) : Nat :=
  match listLimitSearch none (normalizeQuestion q) with
  | some n => min n maxRows
  | none => min 5 maxRows

/-- `f"{schema_name}.{table_name}" if schema_name else table_name`. -/
def fullTableOf (t : FlatTable) : String :=
  if pyStrOpt t.schema then (t.schema.getD "") ++ "." ++ (t.name.getD "")
  else t.name.getD ""

/-- The optional `ORDER BY <order> DESC` clause of a listing query. -/
def orderClauseOf (t : FlatTable) : String :=
  if pyStrOpt (pickOrderColumn t) then
    " ORDER BY " ++ (pickOrderColumn t).getD "" ++ " DESC"
  else ""

/-- The listing SQL `fallback_plan` produces. -/
def listingSqlOf (q : String) (t : FlatTable) (maxRows : Nat) : String :=
  "SELECT " ++ String.intercalate ", " (selectColumns t) ++ " FROM " ++ fullTableOf t ++
    orderClauseOf t ++ " LIMIT " ++ String.mk (natDigits (fallbackLimit q maxRows))

/-- The extremum SQL `fallback_plan` produces. -/
def topSqlOf (q : String) (t : FlatTable) : String :=
  let columns := selectColumns t
  let numericColumn0 := pickNumericColumn t
  let numericColumn :=
    if pyStrOpt numericColumn0 then numericColumn0.getD ""
    else match columns with
      | c :: _ => c
      | [] => "*"
  let direction := if isInfixB "menor".data (normalizeQuestion q) then "ASC" else "DESC"
  "SELECT " ++ String.intercalate ", " columns ++ " FROM " ++ fullTableOf t ++
    " ORDER BY " ++ numericColumn ++ " " ++ direction ++ " LIMIT 1"

/-- `fallback_plan(user_question, schema_context, connection_ids, max_rows)`. -/
def fallbackPlan (q : String) (ctx : SchemaContext) (connectionIds : List Nat)
    (maxRows : Nat) : PlannerResponse :=
  match fallbackCandidates q ctx with
  | [] =>
    ⟨.need_clarification, "Nenhuma tabela candidata encontrada para responder.", [], none,
      some "Qual tabela devo usar para responder?"⟩
  | t :: restCands =>
    if !restCands.isEmpty then
      ⟨.need_clarification, "Existem múltiplas tabelas candidatas.", [], none,
        some ("Qual tabela devo usar: " ++
          String.intercalate ", " (pySortedDedup ((t :: restCands).filterMap (fun c =>
            match c.name with
            | some n => if n = "" then none else some n
            | none => none))) ++ "?")⟩
    else
      let connectionId := pyOrNat t.connectionId connectionIds.head?
      if !(pyNatOpt connectionId) || !(pyStrOpt t.name) then
        ⟨.need_clarification, "Tabela ou conexão não resolvida.", [], none,
          some "Qual conexão devo usar para responder?"⟩
      else if intentTopSearch (normalizeQuestion q) then
        ⟨.run_selects, "Fallback heurístico para maior/menor/top.",
          [⟨"fallback_top", "Identificar valor extremo solicitado.", topSqlOf q t,
            connectionId⟩], none, none⟩
      else if intentListSearch (normalizeQuestion q) then
        ⟨.run_selects, "Fallback heurístico para listar registros.",
          [⟨"fallback_list", "Listar registros solicitados.", listingSqlOf q t maxRows,
            connectionId⟩], none, none⟩
      else ⟨.no_sql_needed, "Pergunta não exige SELECT explícito.", [], none, none⟩

/-! ### The orchestrator (`orchestrate_sql_rag`)

The external collaborators are oracles in `OrchEnv`: the Planner/Responder
LLM calls are indexed by call count and return the outcome of
`_parse_json_response` plus pydantic validation (`none` = invalid); the
target-database driver is indexed by execution count and returns either the
driver error message or the fetched `(columns, rows)`.  The schema context
and per-connection allowlists produced by `_schema_context` (after
`reconcile_scan_status`) are taken as inputs.  Wall-clock fields
(`elapsed_ms`) and the request id are not modelled; the `json.dumps` tool
payload is modelled by an opaque non-empty serializer. -/

/-- A fetched row, as the `{column: value}` mapping with opaque values. -/
abbrev Row := List (String × String)

/-- `ExecutedQuery` (without the wall-clock `elapsed_ms` field). -/
structure ExecutedQuery where
  name : String
  sql : String
  rows_returned : Nat
  truncated : Bool
  connection_id : Nat
deriving DecidableEq

/-- An entry of `sql_results`. -/
structure SqlResult where
  name : String
  sql : String
  columns : List String
  rows : List Row
  row_count : Nat
  truncated : Bool
  connection_id : Nat
deriving DecidableEq

/-- `ResponderResponse`: only the `answer` field influences the
orchestrator. -/
structure ResponderResponse where
  answer : String
deriving DecidableEq

/-- A `PredefinedQuery` of the registry. -/
structure PredefinedQuery where
  id : String
  intent : String
  description : String
  dialect : String
  sql_template : String
  required_params : List String
deriving DecidableEq

/-- `predefined_queries_catalog()` returns the empty registry. -/
def predefinedQueriesCatalog : List PredefinedQuery := []

/-- The `error_context` payload fed back to the Planner. -/
inductive ErrCtx where
  | plannerError (message : String)
  | sqlError (queryName : String) (message : String)
deriving DecidableEq

/-- The configuration fields `orchestrate_sql_rag` reads. -/
structure OrchSettings where
  openai_api_key : String
  db_dialect : String
  sql_max_queries : Nat
  sql_max_rows : Nat
  planner_retry_limit : Nat
  agent_select_rounds : Nat
deriving DecidableEq

/-- The external collaborators of one orchestration. -/
structure OrchEnv where
  planner : Nat → Option PlannerResponse
  responder : Nat → Option ResponderResponse
  connExists : Nat → Bool
  decryptOk : Nat → Bool
  runSql : Nat → Nat → String → Except String (List String × List Row)

/-- Python `repr` of a sorted string list, as interpolated into the
disallowed-tables message. -/
def pyListRepr (l : List String) : String :=
  "[" ++ String.intercalate ", " (l.map (fun s => "\x27" ++ s ++ "\x27")) ++ "]"

/-- The error strings of `_validate_sql`, one per rejection site. -/
def vErrorMessage : VError → String
  | .multipleStatements => "Múltiplas statements não são permitidas."
  | .notSelect => "Apenas SELECT/CTE são permitidos."
  | .selectInto => "SELECT INTO não é permitido."
  | .forUpdateShare => "SELECT com FOR UPDATE/SHARE não é permitido."
  | .forbiddenKeyword => "Comandos de escrita ou DDL não são permitidos."
  | .forbiddenFunction => "Funções perigosas não são permitidas."
  | .disallowedTables missing => "Tabelas fora do catálogo permitido: " ++ pyListRepr missing

/-- Outcome of executing one planner query. -/
inductive StepOut where
  | raised (msg : String)
  | sqlErr (e : ErrCtx)
  | okStep (res : SqlResult) (ex : ExecutedQuery)
deriving DecidableEq

/-- One iteration of the executor loop (`for query in queries_to_run`):
resolve the connection id with Python truthiness, check scope membership,
validate, look up the connection, decrypt (which raises on failure),
execute with the row cap. -/
def execOne (cfg : OrchSettings) (env : OrchEnv) (eIdx : Nat)
    (allowedBy : Nat → List String) (connectionIds : List Nat)
    (query : PlannerQuery) : StepOut × Nat :=
  let connectionId := pyOrNat query.connection_id connectionIds.head?
  if pyNatOpt connectionId && !(connectionIds.contains (connectionId.getD 0)) then
    (.sqlErr (.sqlError query.name "Conexão não permitida para esta consulta."), eIdx)
  else if !(pyNatOpt connectionId) then
    (.sqlErr (.sqlError query.name "Nenhuma conexão disponível para executar a consulta."), eIdx)
  else
    let cid := connectionId.getD 0
    let v := validateSql query.sql (allowedBy cid) cfg.sql_max_rows
    if !v.ok then
      (.sqlErr (.sqlError query.name
        (match v.reason with
         | some e => vErrorMessage e
         | none => "Consulta inválida.")), eIdx)
    else if !(env.connExists cid) then
      (.sqlErr (.sqlError query.name "Conexão não encontrada."), eIdx)
    else if !(env.decryptOk cid) then
      (.raised "Falha ao descriptografar a senha da conexão.", eIdx)
    else
      match env.runSql eIdx cid (String.mk v.rewritten) with
      | .error msg => (.sqlErr (.sqlError query.name msg), eIdx + 1)
      | .ok (cols, fetched) =>
        let rows := fetched.take cfg.sql_max_rows
        (.okStep
          ⟨query.name, String.mk v.rewritten, cols, rows, rows.length,
            decide (cfg.sql_max_rows ≤ rows.length), cid⟩
          ⟨query.name, String.mk v.rewritten, rows.length,
            decide (cfg.sql_max_rows ≤ rows.length), cid⟩, eIdx + 1)

/-- Outcome of the executor loop. -/
inductive ExecOut where
  | raised (msg : String)
  | finished (results : List SqlResult) (executed : List ExecutedQuery)
      (err : Option ErrCtx) (eIdx : Nat)
deriving DecidableEq

/-- The executor loop: run queries in order, appending to the accumulated
`sql_results` / `executed_queries`, breaking at the first error. -/
def execQueries (cfg : OrchSettings) (env : OrchEnv) (allowedBy : Nat → List String)
    (connectionIds : List Nat) :
    List PlannerQuery → Nat → List SqlResult → List ExecutedQuery → ExecOut
  | [], eIdx, results, executed => .finished results executed none eIdx
  | q :: qs, eIdx, results, executed =>
    match execOne cfg env eIdx allowedBy connectionIds q with
    | (.raised msg, _) => .raised msg
    | (.sqlErr e, eIdx2) => .finished results executed (some e) eIdx2
    | (.okStep res ex, eIdx2) =>
      execQueries cfg env allowedBy connectionIds qs eIdx2 (results ++ [res]) (executed ++ [ex])

/-- Opaque stand-in for the `json.dumps` tool payload (never inspected by a
claim; non-empty like the JSON text it models). -/
def toolPayloadOf (results : List SqlResult) (executed : List ExecutedQuery) : String :=
  "tool_payload:" ++ String.intercalate "," (results.map (fun r => r.name)) ++ ";" ++
    String.intercalate "," (executed.map (fun e => e.name))

/-- The LLM-call counters threaded through one orchestration. -/
structure RoundSt where
  pIdx : Nat
  rIdx : Nat
  eIdx : Nat
deriving DecidableEq

/-- Outcome of the round loop within one attempt. -/
inductive RoundOut where
  | ret (r : Except String (String × List ExecutedQuery × String))
  | nextAttempt (retryAttempt : Bool) (err : Option ErrCtx) (st : RoundSt)

/-- The `for round_index in range(agent_select_rounds)` loop of
`orchestrate_sql_rag`, for one attempt.  `roundsLeft` counts down from
`agent_select_rounds` while `roundIdx` counts up from 0. -/
def roundsLoop (cfg : OrchSettings) (env : OrchEnv) (question : String)
    (ctx : SchemaContext) (connectionIds : List Nat) (allowedBy : Nat → List String)
    (attempt : Nat) :
    Nat → Nat → Option ErrCtx → RoundSt → List SqlResult → List ExecutedQuery → RoundOut
  | 0, _, err, st, _, _ => .nextAttempt false err st
  | roundsLeft + 1, roundIdx, err, st, results, executed =>
    let plannerOut := env.planner st.pIdx
    let st : RoundSt := ⟨st.pIdx + 1, st.rIdx, st.eIdx⟩
    let stepResp : Option (PlannerResponse × Option ErrCtx) :=
      match plannerOut with
      | some resp => some (resp, err)
      | none =>
        if intentListSearch question.data || intentTopSearch question.data then
          some (fallbackPlan question ctx connectionIds cfg.sql_max_rows,
            some (.plannerError "Planner retornou JSON inválido."))
        else none
    match stepResp with
    | none => .nextAttempt true (some (.plannerError "Planner retornou JSON inválido.")) st
    | some (resp, _errCur) =>
      if resp.decision = .no_sql_needed then
        match env.responder st.rIdx with
        | none =>
          .ret (.ok ("Não foi possível formatar a resposta final. Pode tentar novamente?", [], ""))
        | some r => .ret (.ok (r.answer, executed, ""))
      else
        let resp :=
          if resp.decision = .need_clarification &&
              (intentListSearch question.data || intentTopSearch question.data) then
            fallbackPlan question ctx connectionIds cfg.sql_max_rows
          else resp
        if resp.decision = .need_clarification then
          .ret (.ok (resp.clarifying_question.getD "Pode fornecer mais detalhes?", [], ""))
        else if resp.decision = .refuse then
          .ret (.ok (resp.reason, [], ""))
        else
          let queriesToRun : List PlannerQuery :=
            if resp.decision = .use_predefined && pyStrOpt resp.predefined_query_id then
              match predefinedQueriesCatalog.find?
                  (fun p => some p.id = resp.predefined_query_id) with
              | some m => [⟨m.intent, m.description, m.sql_template, none⟩]
              | none => []
            else if resp.decision = .run_selects then
              resp.queries.take cfg.sql_max_queries
            else []
          if queriesToRun.isEmpty then
            .ret (.ok ("Não foi possível identificar uma consulta segura para executar.", [], ""))
          else
            match execQueries cfg env allowedBy connectionIds queriesToRun st.eIdx
                results executed with
            | .raised msg => .ret (.error msg)
            | .finished results2 executed2 errOpt eIdx2 =>
              let st : RoundSt := ⟨st.pIdx, st.rIdx, eIdx2⟩
              match errOpt with
              | some e =>
                if attempt < cfg.planner_retry_limit then .nextAttempt false (some e) st
                else
                  .ret (.ok
                    ("Não foi possível executar as consultas solicitadas. Pode ajustar a pergunta?",
                      [], ""))
              | none =>
                if roundIdx < cfg.agent_select_rounds - 1 then
                  roundsLoop cfg env question ctx connectionIds allowedBy attempt
                    roundsLeft (roundIdx + 1) none st results2 executed2
                else
                  match env.responder st.rIdx with
                  | none =>
                    .ret (.ok
                      ("Não foi possível formatar a resposta final. Pode tentar novamente?",
                        [], ""))
                  | some r =>
                    .ret (.ok (r.answer, executed2, toolPayloadOf results2 executed2))

/-- The `for attempt in range(planner_retry_limit + 1)` loop. -/
def attemptsLoop (cfg : OrchSettings) (env : OrchEnv) (question : String)
    (ctx : SchemaContext) (connectionIds : List Nat) (allowedBy : Nat → List String) :
    Nat → Nat → Option ErrCtx → RoundSt →
    Except String (String × List ExecutedQuery × String)
  | 0, _, _, _ => .ok ("Não foi possível concluir a resposta.", [], "")
  | remaining + 1, attempt, err, st =>
    let err := if attempt = 0 then none else err
    match roundsLoop cfg env question ctx connectionIds allowedBy attempt
        cfg.agent_select_rounds 0 err st [] [] with
    | .ret r => r
    | .nextAttempt retry err2 st2 =>
      if retry && !(attempt < cfg.planner_retry_limit) then
        .ok ("Não foi possível entender a decisão do planner no momento. Tente novamente.", [], "")
      else attemptsLoop cfg env question ctx connectionIds allowedBy remaining (attempt + 1)
        err2 st2

/-- `orchestrate_sql_rag`: the missing-key check raises `RuntimeError`
(modelled as `Except.error`), the unsupported-dialect and empty-catalog
checks return fixed messages, then the attempt loop runs. -/
def orchestrateSqlRag (cfg : OrchSettings) (env : OrchEnv) (ctx : SchemaContext)
    (allowedBy : Nat → List String) (question : String) (connectionIds : List Nat) :
    Except String (String × List ExecutedQuery × String) :=
  if cfg.openai_api_key = "" then .error "OPENAI_API_KEY is required"
  else if !(cfg.db_dialect = "postgres") then
    .ok ("Dialeto de banco ainda não suportado para execução segura.", [], "")
  else if !(ctx.any (fun conn => !conn.tables.isEmpty)) then
    .ok ("Não há catálogo/scan concluído. Execute o scan/reindexação do catálogo.", [], "")
  else
    attemptsLoop cfg env question ctx connectionIds allowedBy (cfg.planner_retry_limit + 1) 0
      none ⟨0, 0, 0⟩

/-- A one-table schema context for concrete orchestration runs. -/
def demoCtx : SchemaContext := [⟨some 1, [⟨some "public", some "t", [⟨some "id"⟩]⟩]⟩]

/-- A fixed `run_selects` planner answer for concrete runs. -/
def demoPlannerResp : PlannerResponse :=
  ⟨.run_selects, "r", [⟨"q1", "p", "SELECT 1", some 1⟩], none, none⟩

/-- One-round, no-retry settings for concrete runs. -/
def demoCfg : OrchSettings := ⟨"k", "postgres", 3, 5, 0, 1⟩

/-- Collaborators whose Responder always fails validation. -/
def demoEnvBad : OrchEnv :=
  ⟨fun _ => some demoPlannerResp, fun _ => none, fun _ => true, fun _ => true,
   fun _ _ _ => .ok ([], [[], [], []])⟩

/-- The same collaborators with a valid Responder. -/
def demoEnvGood : OrchEnv :=
  ⟨fun _ => some demoPlannerResp, fun _ => some ⟨"ok!"⟩, fun _ => true, fun _ => true,
   fun _ _ _ => .ok ([], [[], [], []])⟩

/-! The scan-status reconciler (C8).  `reconcile_scan_status` is imported
from `app.services.scan` and called by `orchestrate_sql_rag`, but no
definition of it exists under `src/`; the following definitions are
modelled from the specification (§4.4) and checked against
`tests/test_scan_reconcile.py`. -/

/-- Modelled from the spec: a `Scan` row — `{id, connection_id, status,
started_at, finished_at?, error_message?}`, timestamps as epoch seconds. -/
structure ScanRow where
  id : Nat
  connection_id : Nat
  status : String
  started_at : Option Nat
  finished_at : Option Nat
  error_message : Option String
deriving DecidableEq

/-- Modelled from the spec: a scan is stale when it started more than
`stale_minutes` before `now`. -/
def scanIsStale (staleMinutes now : Nat) (startedAt : Option Nat) : Bool :=
  match startedAt with
  | some t => decide (t + staleMinutes * 60 < now)
  | none => false

/-- Modelled from the spec: the per-scan reconcile update — a stale
`running` scan in the connection scope is promoted to `completed`
(`finished_at = now`, error cleared) when it has associated catalog rows,
and marked `failed` with the fixed message otherwise; all other scans are
untouched. -/
def reconcileOne (connectionIds : List Nat) (staleMinutes now : Nat)
    (catalogRows : Nat → Nat) (s : ScanRow) : ScanRow :=
  if connectionIds.contains s.connection_id && (s.status == "running") &&
      scanIsStale staleMinutes now s.started_at then
    if 0 < catalogRows s.id then
      { s with status := "completed", finished_at := some now, error_message := none }
    else
      { s with
        status := "failed"
        finished_at := some now
        error_message := some "Scan interrompido/sem catálogo gerado" }
  else s

/-- Modelled from the spec: `reconcile(connection_ids, stale_minutes)`
applied to the scan table, with `catalogRows` giving the number of catalog
rows referencing each scan id. -/
def reconcileScanStatus (connectionIds : List Nat) (staleMinutes now : Nat)
    (catalogRows : Nat → Nat) (scans : List ScanRow) : List ScanRow :=
  scans.map (reconcileOne connectionIds staleMinutes now catalogRows)

/-! The vector retriever (C10): both `search_embeddings` implementations,
`app/services/rag.py` (wired into the live app through `app/api/rag.py`)
and `app/application/services/rag.py` (the unreferenced copy). -/

/-- An embedding row\x27s `meta` mapping, restricted to the two keys this
code path reads; the outer `Option` is key presence (`meta` being `None`
is both keys absent), the inner is the stored value. -/
structure EmbMeta where
  connection_id : Option (Option Nat)
  scan_id : Option (Option Nat)
deriving DecidableEq

/-- Python `meta.get(key)`: `None` when the key is absent. -/
def metaGet (m : Option (Option Nat)) : Option Nat :=
  match m with
  | some v => v
  | none => none

/-- Python `\x7b**fallback, **meta\x7d` on the two keys: `meta`\x27s key wins
when present. -/
def metaMerge (fallback meta : EmbMeta) : EmbMeta :=
  ⟨match meta.connection_id with
    | some v => some v
    | none => fallback.connection_id,
   match meta.scan_id with
    | some v => some v
    | none => fallback.scan_id⟩

/-- An `Embedding` row as this code path reads it. -/
structure EmbItem where
  item_type : String
  item_id : Nat
  meta : EmbMeta
deriving DecidableEq

/-- The threshold filter common to both versions:
`[item for item, dist in l if dist is not None and dist <= min_score]`. -/
def thresholdKeep (minScore : Rat) (l : List (EmbItem × Option Rat)) : List EmbItem :=
  (l.filter (fun p =>
    match p.2 with
    | some d => decide (d ≤ minScore)
    | none => false)).map (fun p => p.1)

/-- The scope filter of the live `app/services/rag.py` version: keep
tables/columns whose `meta` connection id is in scope, and api_routes
whose id is in scope; everything else is dropped. -/
def scopeKeep (cs rs : List Nat) (l : List EmbItem) : List EmbItem :=
  l.filter (fun item =>
    if (item.item_type = "table" ∨ item.item_type = "column") ∧ cs ≠ [] then
      match metaGet item.meta.connection_id with
      | some c => decide (c ∈ cs)
      | none => false
    else if item.item_type = "api_route" ∧ rs ≠ [] then
      decide (item.item_id ∈ rs)
    else false)

/-- The `scoped_candidates` loop of `app/application/services/rag.py`:
tables/columns with a falsy `meta` connection id collect fallback metadata
(`rt`/`rc` model `_resolve_table_meta`/`_resolve_column_meta`); a
table/column is kept when its merged connection id is in scope and its
merged scan id is in `latest` (or `latest` is empty); api_routes are kept
by id. -/
def scopedCandidates (rt rc : Nat → EmbMeta) (latest cs rs : List Nat)
    (results : List (EmbItem × Option Rat)) : List (EmbItem × Option Rat) :=
  let ftIds := (results.filter (fun p =>
      p.1.item_type == "table" && !(pyNatOpt (metaGet p.1.meta.connection_id)))).map
    (fun p => p.1.item_id)
  let fcIds := (results.filter (fun p =>
      p.1.item_type == "column" && !(pyNatOpt (metaGet p.1.meta.connection_id)))).map
    (fun p => p.1.item_id)
  results.filter (fun p =>
    if (p.1.item_type = "table" ∨ p.1.item_type = "column") ∧ cs ≠ [] then
      let fb : EmbMeta :=
        if p.1.item_type = "table" then
          (if ftIds.contains p.1.item_id then rt p.1.item_id else ⟨none, none⟩)
        else
          (if fcIds.contains p.1.item_id then rc p.1.item_id else ⟨none, none⟩)
      let m := metaMerge fb p.1.meta
      (match metaGet m.connection_id with
        | some c => decide (c ∈ cs)
        | none => false) &&
      (latest.isEmpty ||
        (match metaGet m.scan_id with
          | some s => decide (s ∈ latest)
          | none => false))
    else if p.1.item_type = "api_route" ∧ rs ≠ [] then
      decide (p.1.item_id ∈ rs)
    else false)

/-- `search_embeddings` of the live `app/services/rag.py` before the final
`[:top_k]`: limit is `top_k * 5` when a scope filter is set (else
`top_k`), then the threshold filter, then the scope filter. -/
def serviceFiltered (all : List (EmbItem × Option Rat)) (minScore : Rat)
    (topK : Nat) (scope : Option (List Nat × List Nat)) : List EmbItem :=
  match scope with
  | some (cs, rs) =>
    if cs ≠ [] ∨ rs ≠ [] then
      scopeKeep cs rs (thresholdKeep minScore (all.take (topK * 5)))
    else thresholdKeep minScore (all.take topK)
  | none => thresholdKeep minScore (all.take topK)

/-- `search_embeddings` of `app/services/rag.py` (the version the live app
wires through `app/api/rag.py`): no fallback when the scope filter empties
the kept set. -/
def searchEmbeddingsService (all : List (EmbItem × Option Rat)) (minScore : Rat)
    (topK : Nat) (scope : Option (List Nat × List Nat)) : List EmbItem :=
  (serviceFiltered all minScore topK scope).take topK

/-- `search_embeddings` of `app/application/services/rag.py` before the
final `[:top_k]`: limit `top_k * 20` when a scope filter is set, the
scope-and-latest-scan filter on the raw candidates, the threshold filter,
and the fallback to `scoped_candidates[:top_k]` when the threshold empties
a non-empty scoped set. -/
def appFiltered (all : List (EmbItem × Option Rat)) (rt rc : Nat → EmbMeta)
    (latest : List Nat) (minScore : Rat) (topK : Nat)
    (scope : Option (List Nat × List Nat)) : List EmbItem :=
  match scope with
  | some (cs, rs) =>
    if cs ≠ [] ∨ rs ≠ [] then
      if thresholdKeep minScore
            (scopedCandidates rt rc latest cs rs (all.take (topK * 20))) = [] ∧
          scopedCandidates rt rc latest cs rs (all.take (topK * 20)) ≠ [] then
        ((scopedCandidates rt rc latest cs rs (all.take (topK * 20))).take topK).map
          (fun p => p.1)
      else
        thresholdKeep minScore (scopedCandidates rt rc latest cs rs (all.take (topK * 20)))
    else thresholdKeep minScore (all.take topK)
  | none => thresholdKeep minScore (all.take topK)

/-- `search_embeddings` of `app/application/services/rag.py` (unreferenced
by the live app). -/
def searchEmbeddingsApp (all : List (EmbItem × Option Rat)) (rt rc : Nat → EmbMeta)
    (latest : List Nat) (minScore : Rat) (topK : Nat)
    (scope : Option (List Nat × List Nat)) : List EmbItem :=
  (appFiltered all rt rc latest minScore topK scope).take topK

/-! Sanity checks reproducing `test_validate_sql_enforces_safety_and_limit`
and `test_validate_sql_allows_cte`. -/

theorem sanity_validate_ok :
    (validateSql "SELECT id FROM public.assets" ["public.assets", "assets"] 5) =
      ⟨true, none, "SELECT id FROM public.assets LIMIT 5".data⟩ := by decide

theorem sanity_validate_update_rejected :
    (validateSql "UPDATE public.assets SET name = 'x'" ["public.assets", "assets"] 5).reason =
      some .notSelect := by decide

theorem sanity_validate_multi_rejected :
    (validateSql "SELECT * FROM public.assets; SELECT * FROM public.assets"
      ["public.assets", "assets"] 5).reason = some .multipleStatements := by decide

theorem sanity_validate_for_update_rejected :
    (validateSql "SELECT * FROM public.assets FOR UPDATE"
      ["public.assets", "assets"] 5).reason = some .forUpdateShare := by decide

theorem sanity_validate_limit_rewritten :
    (validateSql "SELECT * FROM public.assets LIMIT 1000" ["public.assets", "assets"] 5) =
      ⟨true, none, "SELECT * FROM public.assets LIMIT 5".data⟩ := by decide

theorem sanity_validate_cte :
    (validateSql "WITH tmp AS (SELECT id FROM public.assets) SELECT id FROM tmp"
      ["public.assets", "assets"] 5) =
      ⟨true, none,
        "WITH tmp AS (SELECT id FROM public.assets) SELECT id FROM tmp LIMIT 5".data⟩ := by
  decide

theorem filter_ne_nil_of_ne_nil {α : Type} {l : List α} {p : α → Bool}
    (h : l.filter p ≠ []) : l ≠ [] := by
  intro hl
  subst hl
  simp at h

theorem bnot_eq_true {b : Bool} (h : (!b) = true) : b = false := by
  cases b
  · rfl
  · exact absurd h (by decide)

theorem not_bnot_eq_true {b : Bool} (h : ¬((!b) = true)) : b = true := by
  cases b
  · exact absurd rfl h
  · rfl

theorem isEmpty_eq_nil {α : Type} {l : List α} (h : l.isEmpty = true) : l = [] := by
  cases l
  · rfl
  · exact absurd h (by simp)

set_option maxHeartbeats 2000000 in
/-- The accepted result always carries `_ensure_limit` of the cleaned
statement. -/
theorem validate_ok_rewritten (sql : String) (allowed : List String) (maxRows : Nat)
    (h : (validateSql sql allowed maxRows).ok = true) :
    (validateSql sql allowed maxRows).rewritten = ensureLimit (cleanedOf sql) maxRows := by
  unfold validateSql at h ⊢
  split_ifs at h ⊢ <;> first | rfl | exact absurd h (by simp)

set_option maxHeartbeats 2000000 in
/-- **C2.** For every input SQL string that contains a forbidden keyword or
a forbidden sensitive function (case-insensitive, word-bounded), or that is
a compound statement (a `;` remains in the body after removing the trailing
semicolon run), `_validate_sql` returns `ok = false`, for every allowlist
and row cap. -/
theorem claim_C2 (sql : String) (allowed : List String) (maxRows : Nat)
    (h : forbiddenKeywordSearch (loweredOf sql) = true ∨
      forbiddenFunctionSearch (loweredOf sql) = true ∨
      (cleanedOf sql).contains ';' = true) :
    (validateSql sql allowed maxRows).ok = false := by
  unfold validateSql
  split_ifs with h1 h2 h3 h4 h5 h6 h7 h8 h9 h10 <;>
    first
      | rfl
      | (rcases h with hx | hx | hx
         · exact absurd hx h5
         · exact absurd hx h6
         · exact absurd hx h1)

/-- Witness for C2: a SELECT containing the forbidden keyword `drop`. -/
theorem claim_C2_witness :
    (validateSql "SELECT drop FROM t" [] 5).ok = false :=
  claim_C2 "SELECT drop FROM t" [] 5 (Or.inl (by decide))

/-- **C5 (counterexample).** The claim says an input ending in two or more
semicolons, such as `"SELECT 1;;"`, is rejected with the
multiple-statements reason; the code strips the whole trailing semicolon
run, so `"SELECT 1;;"` is accepted and rewritten with a LIMIT. -/
theorem claim_C5_counterexample :
    validateSql "SELECT 1;;" [] 5 = ⟨true, none, "SELECT 1 LIMIT 5".data⟩ := by
  decide

/-- **C5 (amended).** `_validate_sql` strips the whole trailing run of
semicolons (not one semicolon exactly once), and rejects with the
multiple-statements reason exactly when a `;` remains after that. -/
theorem claim_C5_amended (sql : String) (allowed : List String) (maxRows : Nat)
    (h : (cleanedOf sql).contains ';' = true) :
    validateSql sql allowed maxRows = ⟨false, some .multipleStatements, cleanedOf sql⟩ := by
  unfold validateSql
  rw [if_pos h]

/-- Witness for the amended C5 at `"SELECT 1; SELECT 2"`. -/
theorem claim_C5_witness :
    validateSql "SELECT 1; SELECT 2" [] 5 =
      ⟨false, some .multipleStatements, "SELECT 1; SELECT 2".data⟩ :=
  claim_C5_amended "SELECT 1; SELECT 2" [] 5 (by decide)

/-- **C1 (counterexample).** The claim says that when the referenced
tables minus CTEs are not covered by the allowlist and the statement does
not begin with `WITH`, the validator rejects.  The code instead tests
whether `"with"` occurs anywhere in the lowercased statement:
`"select a from withdrawals"` has a missing unqualified table, does not
start with `WITH`, yet is accepted because `"with"` occurs inside the word
`withdrawals`. -/
theorem claim_C1_counterexample :
    (validateSql "select a from withdrawals" [] 5).ok = true ∧
      missingOf "select a from withdrawals" [] = ["withdrawals"] ∧
      List.isPrefixOf "with".data (loweredOf "select a from withdrawals") = false ∧
      isInfixB "with".data (loweredOf "select a from withdrawals") = true := by
  refine ⟨by decide, by decide, by decide, by decide⟩

set_option maxHeartbeats 2000000 in
/-- **C1 (amended).** With `"begins with WITH"` replaced by `"contains the
substring with in its lowercased text"` the claim holds: when the missing
set is non-empty, (a) without the substring the validator rejects, (b) with
the substring it rejects if some missing name is qualified, and (c) with
the substring, a missing set of only unqualified names is accepted provided
the earlier validation rules pass. -/
theorem claim_C1_amended (sql : String) (allowed : List String) (maxRows : Nat) :
    (isInfixB "with".data (loweredOf sql) = false → missingOf sql allowed ≠ [] →
      (validateSql sql allowed maxRows).ok = false) ∧
    (isInfixB "with".data (loweredOf sql) = true →
      missingQualifiedOf sql allowed ≠ [] →
      (validateSql sql allowed maxRows).ok = false) ∧
    (passesPreTableChecks sql = true → isInfixB "with".data (loweredOf sql) = true →
      missingQualifiedOf sql allowed = [] →
      (validateSql sql allowed maxRows).ok = true) := by
  refine ⟨?_, ?_, ?_⟩
  · intro hwith hmiss
    unfold validateSql
    split_ifs with h1 h2 h3 h4 h5 h6 h7 h8 h9 h10 <;>
      first
        | rfl
        | exact absurd h9 (by rw [hwith]; decide)
        | exact absurd (isEmpty_eq_nil (not_bnot_eq_true h8)) hmiss
        | exact absurd (show missingOf sql allowed = [] from by
            simp only [missingOf]
            rw [isEmpty_eq_nil (not_bnot_eq_true h7)]
            rfl) hmiss
  · intro hwith hqual
    unfold validateSql
    split_ifs with h1 h2 h3 h4 h5 h6 h7 h8 h9 h10 <;>
      first
        | rfl
        | exact absurd (isEmpty_eq_nil (not_bnot_eq_true h10)) hqual
        | exact absurd (isEmpty_eq_nil (not_bnot_eq_true h9)) hqual
        | exact absurd (show missingQualifiedOf sql allowed = [] from by
            simp only [missingQualifiedOf]
            rw [isEmpty_eq_nil (not_bnot_eq_true h8)]
            rfl) hqual
        | exact absurd (show missingQualifiedOf sql allowed = [] from by
            simp only [missingQualifiedOf, missingOf]
            rw [isEmpty_eq_nil (not_bnot_eq_true h7)]
            rfl) hqual
  · intro hpre hwith hqual
    have hpre' := hpre
    simp only [passesPreTableChecks, Bool.and_eq_true, Bool.not_eq_true'] at hpre'
    obtain ⟨⟨⟨⟨⟨p1, p2⟩, p3⟩, p4⟩, p5⟩, p6⟩ := hpre'
    unfold validateSql
    split_ifs with h1 h2 h3 h4 h5 h6 h7 h8 h9 h10 <;>
      first
        | rfl
        | exact absurd h1 (by rw [p1]; decide)
        | exact absurd p2 (by rw [bnot_eq_true h2]; decide)
        | exact absurd h3 (by rw [p3]; decide)
        | exact absurd h4 (by rw [p4]; decide)
        | exact absurd h5 (by rw [p5]; decide)
        | exact absurd h6 (by rw [p6]; decide)
        | exact absurd hwith h9
        | exact absurd (show (missingQualifiedOf sql allowed).isEmpty = true from by
            rw [hqual]; rfl) (by rw [bnot_eq_true h10]; decide)
        | exact absurd (show (missingQualifiedOf sql allowed).isEmpty = true from by
            rw [hqual]; rfl) (by rw [bnot_eq_true h9]; decide)

/-- Witness for the amended C1: conjunct (a) rejects a plain missing table,
conjunct (c) accepts a CTE query whose missing names are unqualified. -/
theorem claim_C1_witness :
    (validateSql "select a from qux" [] 5).ok = false ∧
      (validateSql "with x as (select 1) select a from foo" [] 5).ok = true :=
  ⟨(claim_C1_amended "select a from qux" [] 5).1 (by decide) (by decide),
    (claim_C1_amended "with x as (select 1) select a from foo" [] 5).2.2
      (by decide) (by decide) (by decide)⟩

theorem all_takeWhile_self (p : Char → Bool) (l : List Char) :
    (l.takeWhile p).all p = true := by
  induction l with
  | nil => rfl
  | cons c cs ih =>
    by_cases h : p c
    · simp [List.takeWhile, h, ih]
    · simp [List.takeWhile, h]

theorem dropWhile_eq_drop_takeWhile (p : Char → Bool) (l : List Char) :
    l.dropWhile p = l.drop (l.takeWhile p).length := by
  induction l with
  | nil => rfl
  | cons c cs ih =>
    by_cases h : p c
    · simp [List.takeWhile, List.dropWhile, h, ih]
    · simp [List.takeWhile, List.dropWhile, h]

theorem dropCI_lowerEq :
    ∀ (p s r : List Char), dropCI p s = some r → lowerStr (s.take p.length) = lowerStr p := by
  intro p
  induction p with
  | nil =>
    intro s r _
    simp [lowerStr]
  | cons a ps ih =>
    intro s r h
    cases s with
    | nil => simp [dropCI] at h
    | cons c cs =>
      simp only [dropCI] at h
      split at h
      · rename_i hci
        have := ih cs r h
        simp only [ciEq, decide_eq_true_eq] at hci
        simp only [List.length_cons, List.take_succ_cons, lowerStr, List.map_cons]
        rw [← hci]
        simp only [lowerStr] at this
        exact congrArg (lowerChar a :: ·) this
      · exact absurd h (by simp)

theorem limitMatchAt_nil (prev : Option Char) : limitMatchAt prev [] = none := by
  unfold limitMatchAt
  split <;> simp [dropCI]

theorem substLimitAux_nil (cap : Nat) (fuel : Nat) (prev : Option Char) :
    substLimitAux cap fuel prev [] = [] := by
  cases fuel
  · rfl
  · simp [substLimitAux, limitMatchAt_nil]

theorem isWordChar_of_lower {c : Char} (h : isWordChar (lowerChar c) = true) :
    isWordChar c = true := by
  unfold lowerChar at h
  simp only [Char.toLower] at h
  split at h
  · rename_i hrange
    have h1 : (65 : UInt32) ≤ c.val := by
      rw [UInt32.le_def, BitVec.le_def]
      have e1 : (65 : UInt32).toBitVec.toNat = 65 := by decide
      rw [e1]
      exact hrange.1
    have h2 : c.val ≤ (90 : UInt32) := by
      rw [UInt32.le_def, BitVec.le_def]
      have e2 : (90 : UInt32).toBitVec.toNat = 90 := by decide
      rw [e2]
      exact hrange.2
    have hu : c.isUpper = true := by
      simp only [Char.isUpper, ge_iff_le, Bool.and_eq_true, decide_eq_true_eq]
      exact ⟨h1, h2⟩
    simp [isWordChar, Char.isAlpha, hu]
  · exact h

theorem limitMatchAt_not_word {c : Char} (cs : List Char) (prev : Option Char)
    (h : isWordChar c = false) : limitMatchAt prev (c :: cs) = none := by
  unfold limitMatchAt
  split
  · have hci : ciEq 'l' c = false := by
      by_contra hc
      have hc' : ciEq 'l' c = true := by
        cases hx : ciEq 'l' c
        · exact absurd hx hc
        · rfl
      simp only [ciEq, decide_eq_true_eq] at hc'
      have hl : lowerChar c = 'l' := hc'.symm
      have : isWordChar (lowerChar c) = true := by rw [hl]; decide
      rw [isWordChar_of_lower this] at h
      exact absurd h (by decide)
    show (match dropCI "limit".data (c :: cs) with
      | some rest =>
        if (rest.takeWhile isSpaceChar).isEmpty then none
        else
          match limitArgAt (rest.dropWhile isSpaceChar) with
          | some arg => some ((c :: cs).take 5, rest.takeWhile isSpaceChar, arg,
              (rest.dropWhile isSpaceChar).drop arg.chars.length)
          | none => none
      | none => none) = none
    have : dropCI "limit".data (c :: cs) = none := by
      show dropCI ('l' :: "imit".data) (c :: cs) = none
      simp only [dropCI, hci]
      simp
    rw [this]
  · rfl

theorem isEmpty_false_ne_nil {α : Type} {l : List α} (h : l.isEmpty = false) : l ≠ [] := by
  cases l
  · exact absurd h (by simp)
  · simp

theorem tryNumArg_facts {rest2 : List Char} {arg : LimitArg}
    (h : tryNumArg rest2 = some arg) :
    boundaryR (rest2.drop arg.chars.length) = true ∧
    (∀ ds, arg = .num ds → ds ≠ [] ∧ ds.all isDigitChar = true) := by
  by_cases hempty : (rest2.takeWhile isDigitChar).isEmpty
  · simp [tryNumArg, hempty] at h
  · by_cases hb : boundaryR (rest2.dropWhile isDigitChar)
    · simp only [tryNumArg, hempty, hb, if_true, if_false, Bool.false_eq_true,
        Option.some.injEq] at h
      rw [← h]
      constructor
      · simp only [LimitArg.chars]
        rw [← dropWhile_eq_drop_takeWhile]
        exact hb
      · intro ds hds
        injection hds with h2
        subst h2
        refine ⟨isEmpty_false_ne_nil ?_, all_takeWhile_self _ _⟩
        cases hx : (rest2.takeWhile isDigitChar).isEmpty
        · rfl
        · exact absurd hx hempty
    · simp [tryNumArg, hempty, hb] at h

theorem tryBndArg_facts {rest2 : List Char} {arg : LimitArg}
    (h : tryBndArg rest2 = some arg) :
    boundaryR (rest2.drop arg.chars.length) = true ∧
    (∀ ds, arg = .num ds → ds ≠ [] ∧ ds.all isDigitChar = true) := by
  cases rest2 with
  | nil => simp [tryBndArg] at h
  | cons c0 rest =>
    cases rest with
    | nil => simp [tryBndArg] at h
    | cons c cs =>
      simp only [tryBndArg] at h
      split_ifs at h with hc0 halpha hbnd
      · simp only [Option.some.injEq] at h
        rw [← h]
        constructor
        · simp only [LimitArg.chars, List.length_cons, List.drop_succ_cons]
          rw [← dropWhile_eq_drop_takeWhile]
          exact hbnd
        · intro ds hds
          exact absurd hds (by simp)

theorem tryAllArg_facts {rest2 : List Char} {arg : LimitArg}
    (h : tryAllArg rest2 = some arg) :
    boundaryR (rest2.drop arg.chars.length) = true ∧
    (∀ ds, arg = .num ds → ds ≠ [] ∧ ds.all isDigitChar = true) := by
  unfold tryAllArg at h
  split at h
  · rename_i rest3 hdrop
    split at h
    · rename_i hb
      cases h
      obtain ⟨hs, hlen⟩ := dropCI_decomp _ _ _ hdrop
      have h3 : ("all".data).length = 3 := rfl
      rw [h3] at hs hlen
      constructor
      · simp only [LimitArg.chars]
        have hlen3 : (rest2.take 3).length = 3 := by
          rw [List.length_take]
          omega
        rw [hlen3]
        have hdl := List.drop_left (rest2.take 3) rest3
        rw [hlen3] at hdl
        conv_lhs => rw [hs]
        rw [hdl]
        exact hb
      · intro ds hds
        exact absurd hds (by simp)
    · exact absurd h (by simp)
  · exact absurd h (by simp)

theorem limitArgAt_facts {rest2 : List Char} {arg : LimitArg}
    (h : limitArgAt rest2 = some arg) :
    boundaryR (rest2.drop arg.chars.length) = true ∧
    (∀ ds, arg = .num ds → ds ≠ [] ∧ ds.all isDigitChar = true) := by
  unfold limitArgAt at h
  split at h
  · rename_i a ha
    cases h
    exact tryNumArg_facts ha
  · split at h
    · rename_i a ha
      cases h
      exact tryBndArg_facts ha
    · exact tryAllArg_facts h

theorem limitMatchAt_parts {prev : Option Char} {s kw ws : List Char} {arg : LimitArg}
    {rest : List Char} (h : limitMatchAt prev s = some (kw, ws, arg, rest)) :
    boundaryL prev = true ∧ lowerStr kw = "limit".data ∧
    ws ≠ [] ∧ ws.all isSpaceChar = true ∧ boundaryR rest = true ∧
    (∀ ds, arg = .num ds → ds ≠ [] ∧ ds.all isDigitChar = true) := by
  unfold limitMatchAt at h
  split at h
  · rename_i hbl
    cases hdrop : dropCI "limit".data s with
    | none => rw [hdrop] at h; exact absurd h (by simp)
    | some rest0 =>
      rw [hdrop] at h
      simp only at h
      split at h
      · exact absurd h (by simp)
      · rename_i hws
        cases harg : limitArgAt (rest0.dropWhile isSpaceChar) with
        | none => rw [harg] at h; exact absurd h (by simp)
        | some arg0 =>
          rw [harg] at h
          simp only [Option.some.injEq, Prod.mk.injEq] at h
          obtain ⟨hkw, hwseq, harg2, hrest⟩ := h
          subst hkw hwseq harg2 hrest
          obtain ⟨hbr, hnum⟩ := limitArgAt_facts harg
          refine ⟨hbl, ?_, ?_, all_takeWhile_self _ _, hbr, hnum⟩
          · have := dropCI_lowerEq _ _ _ hdrop
            have h5 : ("limit".data).length = 5 := rfl
            rw [h5] at this
            rw [this]
            decide
          · cases hx : (rest0.takeWhile isSpaceChar).isEmpty
            · exact isEmpty_false_ne_nil hx
            · exact absurd hx hws
  · exact absurd h (by simp)

theorem getLast?_cons_isSome (x : Char) (xs : List Char) :
    ∃ d, (x :: xs).getLast? = some d := by
  induction xs generalizing x with
  | nil => exact ⟨x, rfl⟩
  | cons y ys ih =>
    obtain ⟨d, hd⟩ := ih y
    exact ⟨d, by rw [List.getLast?_cons_cons]; exact hd⟩

theorem leftCtx_cons (prev : Option Char) (c : Char) (pre : List Char) :
    leftCtx prev (c :: pre) = leftCtx (some c) pre := by
  cases pre with
  | nil => rfl
  | cons x xs =>
    unfold leftCtx
    rw [List.getLast?_cons_cons]
    obtain ⟨d, hd⟩ := getLast?_cons_isSome x xs
    rw [hd]

theorem occ_lift {cap : Nat} {prev : Option Char} {c : Char} {t : List Char}
    (h : numericLimitOccurrenceFrom cap (some c) t) :
    numericLimitOccurrenceFrom cap prev (c :: t) := by
  obtain ⟨pre, kw, ws, ds, post, heq, h2, h3, h4, h5, h6, h7, h8, h9⟩ := h
  refine ⟨c :: pre, kw, ws, ds, post, ?_, h2, h3, h4, h5, h6, h7, ?_, h9⟩
  · rw [heq]
    rfl
  · rw [leftCtx_cons]
    exact h8

theorem digitChar_isDigit {d : Nat} (h : d < 10) : isDigitChar (digitChar d) = true := by
  interval_cases d <;> decide

theorem digitChar_toNat {d : Nat} (h : d < 10) : (digitChar d).toNat = 48 + d := by
  interval_cases d <;> decide

theorem natDigitsAux_spec :
    ∀ (fuel n : Nat) (acc : List Char), n < 10 ^ (fuel + 1) →
    ∃ ds, natDigitsAux (fuel + 1) n acc = ds ++ acc ∧ ds ≠ [] ∧
      ds.all isDigitChar = true ∧
      ∀ a0 : Nat, ds.foldl (fun a c => a * 10 + (c.toNat - 48)) a0 = a0 * 10 ^ ds.length + n := by
  intro fuel
  induction fuel with
  | zero =>
    intro n acc h
    have hn : n < 10 := by simpa using h
    refine ⟨[digitChar n], by simp [natDigitsAux, hn], by simp, by simp [digitChar_isDigit hn], ?_⟩
    intro a0
    simp only [List.foldl_cons, List.foldl_nil, digitChar_toNat hn, List.length_singleton,
      pow_one]
    omega
  | succ f ih =>
    intro n acc h
    by_cases hn : n < 10
    · refine ⟨[digitChar n], by simp [natDigitsAux, hn], by simp,
        by simp [digitChar_isDigit hn], ?_⟩
      intro a0
      simp only [List.foldl_cons, List.foldl_nil, digitChar_toNat hn, List.length_singleton,
        pow_one]
      omega
    · have hdiv : n / 10 < 10 ^ (f + 1) := by
        rw [Nat.div_lt_iff_lt_mul (by omega)]
        calc n < 10 ^ (f + 1 + 1) := h
          _ = 10 ^ (f + 1) * 10 := by ring
      obtain ⟨ds, heq, hne, hall, hfold⟩ := ih (n / 10) (digitChar (n % 10) :: acc) hdiv
      have hmod : n % 10 < 10 := by omega
      refine ⟨ds ++ [digitChar (n % 10)], ?_, by simp, ?_, ?_⟩
      · show natDigitsAux (f + 1 + 1) n acc = (ds ++ [digitChar (n % 10)]) ++ acc
        rw [show natDigitsAux (f + 1 + 1) n acc
            = natDigitsAux (f + 1) (n / 10) (digitChar (n % 10) :: acc) from by
          simp [natDigitsAux, hn]]
        rw [heq]
        simp
      · simp only [List.all_append, Bool.and_eq_true]
        exact ⟨hall, by simp [digitChar_isDigit hmod]⟩
      · intro a0
        rw [List.foldl_append]
        simp only [List.foldl_cons, List.foldl_nil, List.length_append, List.length_singleton]
        rw [hfold a0, digitChar_toNat hmod]
        have h48 : 48 + n % 10 - 48 = n % 10 := by omega
        rw [h48]
        have hdm : 10 * (n / 10) + n % 10 = n := Nat.div_add_mod n 10
        calc (a0 * 10 ^ ds.length + n / 10) * 10 + n % 10
            = a0 * (10 ^ ds.length * 10) + (10 * (n / 10) + n % 10) := by ring
          _ = a0 * 10 ^ (ds.length + 1) + n := by rw [pow_succ, hdm]

theorem natDigits_spec (n : Nat) :
    natDigits n ≠ [] ∧ (natDigits n).all isDigitChar = true ∧ digitsVal (natDigits n) = n := by
  have h : n < 10 ^ (n + 1) := by
    calc n < 10 ^ n := Nat.lt_pow_self (by omega) n
      _ ≤ 10 ^ (n + 1) := Nat.pow_le_pow_right (by omega) (Nat.le_succ n)
  obtain ⟨ds, heq, hne, hall, hfold⟩ := natDigitsAux_spec n n [] h
  have heq2 : natDigits n = ds := by
    unfold natDigits
    rw [heq]
    simp
  refine ⟨by rw [heq2]; exact hne, by rw [heq2]; exact hall, ?_⟩
  rw [heq2]
  unfold digitsVal
  rw [hfold 0]
  simp

theorem substLimitAux_head_not_word (cap fuel : Nat) (p : Option Char) {r : Char}
    (rs : List Char) (h : isWordChar r = false) :
    ∃ t, substLimitAux cap fuel p (r :: rs) = r :: t := by
  cases fuel with
  | zero => exact ⟨rs, rfl⟩
  | succ f =>
    refine ⟨substLimitAux cap f (some r) rs, ?_⟩
    simp [substLimitAux, limitMatchAt_not_word rs p h]

theorem firstLimitArg_num_occ {cap : Nat} :
    ∀ (s : List Char) (prev : Option Char) (ds : List Char),
    firstLimitArg prev s = some (.num ds) → digitsVal ds ≤ cap →
    numericLimitOccurrenceFrom cap prev s := by
  intro s
  induction s with
  | nil =>
    intro prev ds h _
    simp [firstLimitArg] at h
  | cons c cs ih =>
    intro prev ds h hle
    rw [firstLimitArg] at h
    cases hm : limitMatchAt prev (c :: cs) with
    | some quad =>
      obtain ⟨kw, ws, arg, rest⟩ := quad
      rw [hm] at h
      simp only [Option.some.injEq] at h
      subst h
      obtain ⟨hseq, _⟩ := limitMatchAt_decomp hm
      obtain ⟨hbl, hkw, hwsne, hwsall, hbr, hnum⟩ := limitMatchAt_parts hm
      obtain ⟨hdne, hdall⟩ := hnum ds rfl
      exact ⟨[], kw, ws, ds, rest, by simpa using hseq, hkw, hwsne, hwsall, hdne, hdall,
        hle, hbl, hbr⟩
    | none =>
      rw [hm] at h
      exact occ_lift (ih (some c) ds h hle)

theorem substLimitAux_occ {cap : Nat} :
    ∀ (fuel : Nat) (s : List Char) (prev : Option Char),
    s.length ≤ fuel → (firstLimitArg prev s).isSome = true →
    numericLimitOccurrenceFrom cap prev (substLimitAux cap fuel prev s) := by
  intro fuel
  induction fuel with
  | zero =>
    intro s prev hlen hsome
    have hnil : s = [] := by
      cases s
      · rfl
      · simp at hlen
    subst hnil
    simp [firstLimitArg] at hsome
  | succ f ih =>
    intro s prev hlen hsome
    cases s with
    | nil => simp [firstLimitArg] at hsome
    | cons c cs =>
      simp only [substLimitAux]
      cases hm : limitMatchAt prev (c :: cs) with
      | some quad =>
        obtain ⟨kw, ws, arg, rest⟩ := quad
        obtain ⟨hbl, _, _, _, hbr, _⟩ := limitMatchAt_parts hm
        obtain ⟨hdne, hdall, hdval⟩ := natDigits_spec cap
        refine ⟨[], "LIMIT".data, [' '], natDigits cap,
          substLimitAux cap f ((kw ++ ws ++ arg.chars).getLast?) rest, ?_, by decide,
          by simp, by decide, hdne, hdall, by rw [hdval], ?_, ?_⟩
        · show limitRepl cap ++ _ = _
          unfold limitRepl
          simp
        · exact hbl
        · cases rest with
          | nil =>
            rw [substLimitAux_nil]
            rfl
          | cons r rs =>
            have hr : isWordChar r = false := by
              have : (!isWordChar r) = true := hbr
              cases hx : isWordChar r
              · rfl
              · rw [hx] at this; exact absurd this (by decide)
            obtain ⟨t, ht⟩ := substLimitAux_head_not_word cap f
              ((kw ++ ws ++ arg.chars).getLast?) rs hr
            rw [ht]
            show (!isWordChar r) = true
            rw [hr]
            rfl
      | none =>
        have hsome' : (firstLimitArg (some c) cs).isSome = true := by
          rw [firstLimitArg, hm] at hsome
          exact hsome
        have hlen' : cs.length ≤ f := by simpa using hlen
        exact occ_lift (ih cs (some c) hlen' hsome')

set_option maxHeartbeats 1000000 in
/-- **C4.** For every SQL accepted by the validator and every cap: when the
first LIMIT-pattern match of the cleaned statement is numeric and at most
the cap, the statement is kept unchanged; and in every case the rewritten
SQL contains a word-bounded numeric `LIMIT n` with `n ≤ cap`, or ends with
`LIMIT <cap>`. -/
theorem claim_C4 (sql : String) (allowed : List String) (cap : Nat)
    (hok : (validateSql sql allowed cap).ok = true) :
    (∀ ds, firstLimitArg none (cleanedOf sql) = some (.num ds) → digitsVal ds ≤ cap →
      (validateSql sql allowed cap).rewritten = cleanedOf sql) ∧
    (numericLimitOccurrence cap ((validateSql sql allowed cap).rewritten) ∨
      ("LIMIT ".data ++ natDigits cap) <:+ (validateSql sql allowed cap).rewritten) := by
  have hrw := validate_ok_rewritten sql allowed cap hok
  constructor
  · intro ds hfl hle
    rw [hrw]
    unfold ensureLimit
    rw [hfl]
    simp [hle]
  · rw [hrw]
    unfold ensureLimit
    cases hfl : firstLimitArg none (cleanedOf sql) with
    | none =>
      right
      refine ⟨pyRstripSemi (cleanedOf sql) ++ [' '], ?_⟩
      rw [List.append_assoc]
      rfl
    | some arg =>
      left
      have hsome : (firstLimitArg none (cleanedOf sql)).isSome = true := by
        rw [hfl]; rfl
      cases arg with
      | num ds =>
        by_cases hle : digitsVal ds ≤ cap
        · simp only [hle, if_true]
          exact firstLimitArg_num_occ (cleanedOf sql) none ds hfl hle
        · simp only [hle, if_false]
          exact substLimitAux_occ (cleanedOf sql).length (cleanedOf sql) none (le_refl _) hsome
      | bnd cs =>
        exact substLimitAux_occ (cleanedOf sql).length (cleanedOf sql) none (le_refl _) hsome
      | all cs =>
        exact substLimitAux_occ (cleanedOf sql).length (cleanedOf sql) none (le_refl _) hsome

/-- Witness for C4 at `"SELECT 2 LIMIT 3"` with cap 5: part one keeps the
statement, part two exhibits the bounded LIMIT. -/
theorem claim_C4_witness :
    (validateSql "SELECT 2 LIMIT 3" [] 5).rewritten = cleanedOf "SELECT 2 LIMIT 3" ∧
      (numericLimitOccurrence 5 ((validateSql "SELECT 2 LIMIT 3" [] 5).rewritten) ∨
        ("LIMIT ".data ++ natDigits 5) <:+ (validateSql "SELECT 2 LIMIT 3" [] 5).rewritten) :=
  ⟨(claim_C4 "SELECT 2 LIMIT 3" [] 5 (by decide)).1 ['3'] (by decide) (by decide),
    (claim_C4 "SELECT 2 LIMIT 3" [] 5 (by decide)).2⟩

/-- **C9 (counterexample).** The claim says that for every question
matching the listing intent with a single resolved candidate table the
fallback planner returns the listing SQL with the captured-or-default
LIMIT.  The code checks the extremum intent first: the question
`"liste o maior asset"` matches both intents, and the planner returns the
extremum query `... ORDER BY value DESC LIMIT 1` instead of the claimed
listing SQL (`... ORDER BY id DESC LIMIT 5`). -/
theorem claim_C9_counterexample :
    intentListSearch (normalizeQuestion "liste o maior asset") = true ∧
    fallbackCandidates "liste o maior asset"
        [⟨some 1, [⟨some "public", some "assets",
          [⟨some "id"⟩, ⟨some "value"⟩, ⟨some "name"⟩]⟩]⟩] =
      [⟨some 1, some "public", some "assets",
        [⟨some "id"⟩, ⟨some "value"⟩, ⟨some "name"⟩]⟩] ∧
    (fallbackPlan "liste o maior asset"
        [⟨some 1, [⟨some "public", some "assets",
          [⟨some "id"⟩, ⟨some "value"⟩, ⟨some "name"⟩]⟩]⟩] [1] 10).queries.map
        (fun x => x.sql) =
      ["SELECT id, name, value FROM public.assets ORDER BY value DESC LIMIT 1"] ∧
    listingSqlOf "liste o maior asset"
        ⟨some 1, some "public", some "assets",
          [⟨some "id"⟩, ⟨some "value"⟩, ⟨some "name"⟩]⟩ 10 =
      "SELECT id, name, value FROM public.assets ORDER BY id DESC LIMIT 5" := by
  refine ⟨by decide, by decide, by decide, by decide⟩

/-- **C9 (amended).** For every question matching the listing intent but
not the extremum intent, whose candidate resolution yields exactly one
table with a truthy resolved connection id and table name, the fallback
planner returns `run_selects` with exactly one query whose SQL is
`SELECT <cols> FROM <schema.table>[ ORDER BY <order> DESC] LIMIT <limit>`,
where the limit is the number captured after cite/listar/liste/mostre/
mostrar when present and 5 otherwise, in both cases capped at `max_rows`. -/
theorem claim_C9_amended (q : String) (ctx : SchemaContext) (connectionIds : List Nat)
    (maxRows : Nat) (t : FlatTable)
    (hcand : fallbackCandidates q ctx = [t])
    (hconn : pyNatOpt (pyOrNat t.connectionId connectionIds.head?) = true)
    (hname : pyStrOpt t.name = true)
    (htop : intentTopSearch (normalizeQuestion q) = false)
    (hlist : intentListSearch (normalizeQuestion q) = true) :
    fallbackPlan q ctx connectionIds maxRows =
      ⟨.run_selects, "Fallback heurístico para listar registros.",
        [⟨"fallback_list", "Listar registros solicitados.", listingSqlOf q t maxRows,
          pyOrNat t.connectionId connectionIds.head?⟩], none, none⟩ := by
  unfold fallbackPlan
  rw [hcand]
  simp [hconn, hname, htop, hlist]

/-- Witness for the amended C9: scenario S1 of the specification. -/
theorem claim_C9_witness :
    fallbackPlan "quais assets nós temos na tabela? cite 5"
        [⟨some 1, [⟨some "public", some "assets", [⟨some "id"⟩, ⟨some "name"⟩]⟩]⟩] [1] 200 =
      ⟨.run_selects, "Fallback heurístico para listar registros.",
        [⟨"fallback_list", "Listar registros solicitados.",
          "SELECT id, name FROM public.assets ORDER BY id DESC LIMIT 5", some 1⟩],
        none, none⟩ := by
  have h := claim_C9_amended "quais assets nós temos na tabela? cite 5"
      [⟨some 1, [⟨some "public", some "assets", [⟨some "id"⟩, ⟨some "name"⟩]⟩]⟩] [1] 200
      ⟨some 1, some "public", some "assets", [⟨some "id"⟩, ⟨some "name"⟩]⟩
      (by decide) (by decide) (by decide) (by decide) (by decide)
  rw [h]
  decide

/-- **C3 (counterexample).** A missing `OPENAI_API_KEY` does not produce a
fixed user-readable message: `orchestrate_sql_rag` raises `RuntimeError`
(modelled as `Except.error`) before returning any answer tuple. -/
theorem claim_C3_counterexample :
    orchestrateSqlRag ⟨"", "postgres", 3, 200, 2, 3⟩
        ⟨fun _ => none, fun _ => none, fun _ => false, fun _ => false, fun _ _ _ => .error ""⟩
        [] (fun _ => []) "pergunta" [] =
      .error "OPENAI_API_KEY is required" := rfl

/-- **C3 (amended).** The missing-key check short-circuits before any
external call, but by raising `RuntimeError("OPENAI_API_KEY is required")`
to the caller, not by returning a message; only the unsupported-dialect
check returns a fixed user-readable answer tuple. -/
theorem claim_C3_amended (cfg : OrchSettings) (env : OrchEnv) (ctx : SchemaContext)
    (allowedBy : Nat → List String) (question : String) (connectionIds : List Nat) :
    (cfg.openai_api_key = "" →
      orchestrateSqlRag cfg env ctx allowedBy question connectionIds =
        .error "OPENAI_API_KEY is required") ∧
    (cfg.openai_api_key ≠ "" → cfg.db_dialect ≠ "postgres" →
      orchestrateSqlRag cfg env ctx allowedBy question connectionIds =
        .ok ("Dialeto de banco ainda não suportado para execução segura.", [], "")) := by
  constructor
  · intro h
    simp [orchestrateSqlRag, h]
  · intro h1 h2
    simp [orchestrateSqlRag, h1, h2]

/-- Witness for the amended C3: an empty key raises, a non-postgres dialect
returns the fixed dialect message. -/
theorem claim_C3_witness :
    orchestrateSqlRag ⟨"", "postgres", 3, 200, 2, 3⟩
        ⟨fun _ => none, fun _ => none, fun _ => false, fun _ => false, fun _ _ _ => .error ""⟩
        [] (fun _ => []) "q" [] = .error "OPENAI_API_KEY is required" ∧
    orchestrateSqlRag ⟨"k", "mysql", 3, 200, 2, 3⟩
        ⟨fun _ => none, fun _ => none, fun _ => false, fun _ => false, fun _ _ _ => .error ""⟩
        [] (fun _ => []) "q" [] =
      .ok ("Dialeto de banco ainda não suportado para execução segura.", [], "") :=
  ⟨(claim_C3_amended ⟨"", "postgres", 3, 200, 2, 3⟩
      ⟨fun _ => none, fun _ => none, fun _ => false, fun _ => false, fun _ _ _ => .error ""⟩
      [] (fun _ => []) "q" []).1 rfl,
   (claim_C3_amended ⟨"k", "mysql", 3, 200, 2, 3⟩
      ⟨fun _ => none, fun _ => none, fun _ => false, fun _ => false, fun _ _ _ => .error ""⟩
      [] (fun _ => []) "q" []).2 (by decide) (by decide)⟩

/-! Helper lemmas for C6: `List.contains` on `Nat` agrees with membership,
and a successfully executed step records an in-scope connection id. -/

theorem mem_of_contains_true {c : Nat} {l : List Nat} (h : l.contains c = true) : c ∈ l := by
  simpa using h

theorem contains_false_of_not_mem {c : Nat} {l : List Nat} (h : c ∉ l) : l.contains c = false := by
  simpa using h

theorem execOne_okStep_mem (cfg : OrchSettings) (env : OrchEnv) (eIdx : Nat)
    (allowedBy : Nat → List String) (scope : List Nat) (q : PlannerQuery)
    (res : SqlResult) (ex : ExecutedQuery) (eIdx2 : Nat)
    (h : execOne cfg env eIdx allowedBy scope q = (.okStep res ex, eIdx2)) :
    ex.connection_id ∈ scope := by
  simp only [execOne] at h
  split_ifs at h with h1 h2 h3 h4 h5
  · simp at h
  · simp at h
  · simp at h
  · simp at h
  · simp at h
  · split at h
    · simp at h
    · simp only [Prod.mk.injEq, StepOut.okStep.injEq] at h
      obtain ⟨⟨-, hex⟩, -⟩ := h
      subst hex
      have hb : pyNatOpt (pyOrNat q.connection_id scope.head?) = true := by
        cases hv : pyNatOpt (pyOrNat q.connection_id scope.head?)
        · exact absurd (by rw [hv]; rfl) h2
        · rfl
      have hct : scope.contains ((pyOrNat q.connection_id scope.head?).getD 0) = true := by
        cases hcc : scope.contains ((pyOrNat q.connection_id scope.head?).getD 0)
        · exact absurd (by rw [hb, hcc]; rfl) h1
        · rfl
      exact mem_of_contains_true hct

theorem execQueries_executed_mem (cfg : OrchSettings) (env : OrchEnv)
    (allowedBy : Nat → List String) (scope : List Nat) :
    ∀ (queries : List PlannerQuery) (eIdx : Nat) (results : List SqlResult)
      (executed : List ExecutedQuery) (results2 : List SqlResult)
      (executed2 : List ExecutedQuery) (err : Option ErrCtx) (eIdx2 : Nat),
    execQueries cfg env allowedBy scope queries eIdx results executed =
      .finished results2 executed2 err eIdx2 →
    ∀ e ∈ executed2, e ∈ executed ∨ e.connection_id ∈ scope := by
  intro queries
  induction queries with
  | nil =>
    intro eIdx results executed results2 executed2 err eIdx2 h e he
    simp only [execQueries] at h
    injection h with h1 h2 h3 h4
    subst h2
    exact Or.inl he
  | cons q qs ih =>
    intro eIdx results executed results2 executed2 err eIdx2 h e he
    simp only [execQueries] at h
    rcases hstep : execOne cfg env eIdx allowedBy scope q with ⟨step, eIdx3⟩
    rw [hstep] at h
    cases step with
    | raised msg => simp at h
    | sqlErr ec =>
      simp only [] at h
      injection h with h1 h2 h3 h4
      subst h2
      exact Or.inl he
    | okStep res ex =>
      simp only [] at h
      have hmem := ih eIdx3 (results ++ [res]) (executed ++ [ex]) results2 executed2 err eIdx2 h e he
      rcases hmem with hmem | hscope
      · rcases List.mem_append.1 hmem with hold | hnew
        · exact Or.inl hold
        · have hee : e = ex := by simpa using hnew
          subst hee
          exact Or.inr (execOne_okStep_mem cfg env eIdx allowedBy scope q res e eIdx3 hstep)
      · exact Or.inr hscope

/-- **C6 (amended).** Every connection id recorded by the executor is in
the caller-supplied scope, and a supplied *non-zero* connection id outside
the scope produces a sql_error instead of an execution — but the
resolution uses Python `or` truthiness, so a supplied connection id of `0`
is treated like an absent one and silently defaults to the scope\x27s first
element instead of being rejected. -/
theorem claim_C6_amended :
    (∀ (cfg : OrchSettings) (env : OrchEnv) (allowedBy : Nat → List String)
        (scope : List Nat) (queries : List PlannerQuery) (eIdx : Nat)
        (results : List SqlResult) (executed : List ExecutedQuery)
        (results2 : List SqlResult) (executed2 : List ExecutedQuery)
        (err : Option ErrCtx) (eIdx2 : Nat),
      execQueries cfg env allowedBy scope queries eIdx results executed =
        .finished results2 executed2 err eIdx2 →
      ∀ e ∈ executed2, e ∈ executed ∨ e.connection_id ∈ scope) ∧
    (∀ (cfg : OrchSettings) (env : OrchEnv) (eIdx : Nat) (allowedBy : Nat → List String)
        (scope : List Nat) (q : PlannerQuery) (c : Nat),
      q.connection_id = some c → c ≠ 0 → c ∉ scope →
      execOne cfg env eIdx allowedBy scope q =
        (.sqlErr (.sqlError q.name "Conexão não permitida para esta consulta."), eIdx)) ∧
    (∀ (q : PlannerQuery) (scope : List Nat),
      q.connection_id = none ∨ q.connection_id = some 0 →
      pyOrNat q.connection_id scope.head? = scope.head?) := by
  refine ⟨execQueries_executed_mem, ?_, ?_⟩
  · intro cfg env eIdx allowedBy scope q c hq hc0 hc
    have h1 : pyOrNat q.connection_id scope.head? = some c := by
      rw [hq]
      simp [pyOrNat, hc0]
    have h2 : (pyNatOpt (some c) && !scope.contains ((some c : Option Nat).getD 0)) = true := by
      rw [Option.getD_some, contains_false_of_not_mem hc]
      simp [pyNatOpt, hc0]
    simp only [execOne, h1]
    split_ifs with hA hB hC hD hE
    all_goals first
      | rfl
      | exact absurd h2 hA
  · intro q scope hq
    rcases hq with hq | hq <;> simp [pyOrNat, hq]

/-- Witness for the amended C6: a supplied id 2 outside scope [1] is
rejected; a supplied id 0 resolves to the scope head 1; and the executor
run with a 0-supplied id records connection 1, which is in scope. -/
theorem claim_C6_witness :
    execOne ⟨"k", "postgres", 3, 5, 2, 3⟩
        ⟨fun _ => none, fun _ => none, fun _ => true, fun _ => true, fun _ _ _ => .ok ([], [])⟩
        0 (fun _ => []) [1] ⟨"q", "p", "SELECT 1", some 2⟩ =
      (.sqlErr (.sqlError "q" "Conexão não permitida para esta consulta."), 0) ∧
    pyOrNat (some 0) (([1] : List Nat).head?) = ([1] : List Nat).head? ∧
    ((⟨"q", "SELECT 1 LIMIT 5", 0, false, 1⟩ : ExecutedQuery) ∈ ([] : List ExecutedQuery) ∨
      (⟨"q", "SELECT 1 LIMIT 5", 0, false, 1⟩ : ExecutedQuery).connection_id ∈ [1]) :=
  ⟨claim_C6_amended.2.1 ⟨"k", "postgres", 3, 5, 2, 3⟩
      ⟨fun _ => none, fun _ => none, fun _ => true, fun _ => true, fun _ _ _ => .ok ([], [])⟩
      0 (fun _ => []) [1] ⟨"q", "p", "SELECT 1", some 2⟩ 2 rfl (by decide) (by decide),
   claim_C6_amended.2.2 ⟨"q", "p", "SELECT 1", some 0⟩ [1] (Or.inr rfl),
   claim_C6_amended.1 ⟨"k", "postgres", 3, 5, 2, 3⟩
      ⟨fun _ => none, fun _ => none, fun _ => true, fun _ => true, fun _ _ _ => .ok ([], [])⟩
      (fun _ => []) [1] [⟨"q", "p", "SELECT 1", some 0⟩] 0 [] []
      [⟨"q", "SELECT 1 LIMIT 5", [], [], 0, false, 1⟩] [⟨"q", "SELECT 1 LIMIT 5", 0, false, 1⟩]
      none 1 (by decide) ⟨"q", "SELECT 1 LIMIT 5", 0, false, 1⟩ (by decide)⟩

/-- **C6 (counterexample).** A query-supplied connection id of `0`, outside
the scope `[1]`, does not produce a sql_error: the Python `or` treats `0`
as absent, the query executes against connection `1`, and the executor
finishes with no error. -/
theorem claim_C6_counterexample :
    execQueries ⟨"k", "postgres", 3, 5, 2, 3⟩
        ⟨fun _ => none, fun _ => none, fun _ => true, fun _ => true, fun _ _ _ => .ok ([], [])⟩
        (fun _ => []) [1] [⟨"q", "p", "SELECT 1", some 0⟩] 0 [] [] =
      .finished [⟨"q", "SELECT 1 LIMIT 5", [], [], 0, false, 1⟩]
        [⟨"q", "SELECT 1 LIMIT 5", 0, false, 1⟩] none 1 ∧
    (0 : Nat) ∉ ([1] : List Nat) := by decide

/-! Helper lemmas for C7: when the Responder always fails validation, every
normally returned answer tuple carries an empty executed-query list and an
empty tool payload. -/

set_option maxHeartbeats 2000000 in
theorem roundsLoop_responder_invalid (cfg : OrchSettings) (env : OrchEnv) (question : String)
    (ctx : SchemaContext) (connectionIds : List Nat) (allowedBy : Nat → List String)
    (attempt : Nat) (hres : ∀ i, env.responder i = none) :
    ∀ (roundsLeft roundIdx : Nat) (err : Option ErrCtx) (st : RoundSt)
      (results : List SqlResult) (executed : List ExecutedQuery)
      (r : String × List ExecutedQuery × String),
    roundsLoop cfg env question ctx connectionIds allowedBy attempt
        roundsLeft roundIdx err st results executed = .ret (.ok r) →
    r.2.1 = [] ∧ r.2.2 = "" := by
  intro roundsLeft
  induction roundsLeft with
  | zero =>
    intro roundIdx err st results executed r h
    simp only [roundsLoop] at h
    exact RoundOut.noConfusion h
  | succ n ih =>
    intro roundIdx err st results executed r h
    simp only [roundsLoop] at h
    simp only [hres] at h
    repeat' split at h
    all_goals
      first
        | exact ih _ _ _ _ _ _ h
        | (simp only [RoundOut.ret.injEq, Except.ok.injEq] at h; subst h; exact ⟨rfl, rfl⟩)
        | simp at h

theorem attemptsLoop_responder_invalid (cfg : OrchSettings) (env : OrchEnv) (question : String)
    (ctx : SchemaContext) (connectionIds : List Nat) (allowedBy : Nat → List String)
    (hres : ∀ i, env.responder i = none) :
    ∀ (remaining attempt : Nat) (err : Option ErrCtx) (st : RoundSt)
      (r : String × List ExecutedQuery × String),
    attemptsLoop cfg env question ctx connectionIds allowedBy remaining attempt err st = .ok r →
    r.2.1 = [] ∧ r.2.2 = "" := by
  intro remaining
  induction remaining with
  | zero =>
    intro attempt err st r h
    simp only [attemptsLoop, Except.ok.injEq] at h
    subst h
    exact ⟨rfl, rfl⟩
  | succ n ih =>
    intro attempt err st r h
    simp only [attemptsLoop] at h
    split at h
    · rename_i r2 heq
      exact roundsLoop_responder_invalid cfg env question ctx connectionIds allowedBy attempt
        hres _ _ _ _ _ _ r (by rw [heq, h])
    · rename_i retry err2 st2 heq
      split at h
      · simp only [Except.ok.injEq] at h
        subst h
        exact ⟨rfl, rfl⟩
      · exact ih _ _ _ _ h

/-- **C7 (amended).** Whenever the Responder\x27s output fails JSON parsing
or schema validation, orchestrate returns the fixed apology message as the
answer, but the executed-query list accumulated up to that point is
*dropped*: with a Responder that never validates, every normally returned
tuple has an empty executed-query list and an empty tool payload. -/
theorem claim_C7_amended (cfg : OrchSettings) (env : OrchEnv) (ctx : SchemaContext)
    (allowedBy : Nat → List String) (question : String) (connectionIds : List Nat)
    (hres : ∀ i, env.responder i = none)
    (r : String × List ExecutedQuery × String)
    (h : orchestrateSqlRag cfg env ctx allowedBy question connectionIds = .ok r) :
    r.2.1 = [] ∧ r.2.2 = "" := by
  unfold orchestrateSqlRag at h
  split_ifs at h with h1 h2 h3
  · simp only [Except.ok.injEq] at h
    subst h
    exact ⟨rfl, rfl⟩
  · simp only [Except.ok.injEq] at h
    subst h
    exact ⟨rfl, rfl⟩
  · exact attemptsLoop_responder_invalid cfg env question ctx connectionIds allowedBy hres
      _ _ _ _ _ h

/-- Witness for the amended C7: the demo run whose Responder always fails
validation returns the apology with an empty executed list and payload. -/
theorem claim_C7_witness :
    (("Não foi possível formatar a resposta final. Pode tentar novamente?",
        ([] : List ExecutedQuery), "") : String × List ExecutedQuery × String).2.1 = [] ∧
    (("Não foi possível formatar a resposta final. Pode tentar novamente?",
        ([] : List ExecutedQuery), "") : String × List ExecutedQuery × String).2.2 = "" :=
  claim_C7_amended demoCfg demoEnvBad demoCtx (fun _ => []) "hello" [1] (fun _ => rfl) _ rfl

/-- **C7 (counterexample).** Identical runs that execute one query: with a
valid Responder the answer carries the executed query and a non-empty
payload; with an invalid Responder the apology is returned with the
executed-query list dropped (empty) and an empty payload. -/
theorem claim_C7_counterexample :
    orchestrateSqlRag demoCfg demoEnvBad demoCtx (fun _ => []) "hello" [1] =
      .ok ("Não foi possível formatar a resposta final. Pode tentar novamente?", [], "") ∧
    orchestrateSqlRag demoCfg demoEnvGood demoCtx (fun _ => []) "hello" [1] =
      .ok ("ok!", [⟨"q1", "SELECT 1 LIMIT 5", 3, false, 1⟩],
        toolPayloadOf [⟨"q1", "SELECT 1 LIMIT 5", [], [[], [], []], 3, false, 1⟩]
          [⟨"q1", "SELECT 1 LIMIT 5", 3, false, 1⟩]) :=
  ⟨rfl, rfl⟩

/-- **C8.** For every stale `running` scan in the connection scope, the
reconciler promotes it to `completed` with `finished_at = now` and the
error cleared when it has associated catalog rows, and marks it `failed`
with the fixed message otherwise; and a scan is promoted to `completed`
only if catalog rows exist for it. -/
theorem claim_C8 (connectionIds : List Nat) (staleMinutes now : Nat)
    (catalogRows : Nat → Nat) (scans : List ScanRow) (s : ScanRow)
    (hmem : s ∈ scans)
    (hcond : (connectionIds.contains s.connection_id && (s.status == "running") &&
      scanIsStale staleMinutes now s.started_at) = true) :
    (0 < catalogRows s.id →
      reconcileOne connectionIds staleMinutes now catalogRows s =
        { s with status := "completed", finished_at := some now, error_message := none } ∧
      { s with status := "completed", finished_at := some now, error_message := none } ∈
        reconcileScanStatus connectionIds staleMinutes now catalogRows scans) ∧
    (catalogRows s.id = 0 →
      reconcileOne connectionIds staleMinutes now catalogRows s =
        { s with
          status := "failed"
          finished_at := some now
          error_message := some "Scan interrompido/sem catálogo gerado" } ∧
      { s with
          status := "failed"
          finished_at := some now
          error_message := some "Scan interrompido/sem catálogo gerado" } ∈
        reconcileScanStatus connectionIds staleMinutes now catalogRows scans) ∧
    (∀ s2 : ScanRow,
      (reconcileOne connectionIds staleMinutes now catalogRows s2).status = "completed" →
      s2.status = "completed" ∨ 0 < catalogRows s2.id) := by
  refine ⟨?_, ?_, ?_⟩
  · intro hc
    have he : reconcileOne connectionIds staleMinutes now catalogRows s =
        { s with status := "completed", finished_at := some now, error_message := none } := by
      unfold reconcileOne
      rw [if_pos hcond, if_pos hc]
    exact ⟨he, he ▸ List.mem_map_of_mem _ hmem⟩
  · intro hc
    have he : reconcileOne connectionIds staleMinutes now catalogRows s =
        { s with
          status := "failed"
          finished_at := some now
          error_message := some "Scan interrompido/sem catálogo gerado" } := by
      unfold reconcileOne
      rw [if_pos hcond, if_neg (by omega)]
    exact ⟨he, he ▸ List.mem_map_of_mem _ hmem⟩
  · intro s2 h2
    unfold reconcileOne at h2
    split_ifs at h2 with hA hB
    · exact Or.inr hB
    · simp at h2
    · exact Or.inl h2

/-- Witness for C8: the two scenarios of `test_scan_reconcile.py` — a
stale running scan with 3 catalog rows completes, one with 0 fails. -/
theorem claim_C8_witness :
    (reconcileOne [10] 5 600 (fun i => if i = 1 then 3 else 0)
        ⟨1, 10, "running", some 0, none, none⟩ =
      ⟨1, 10, "completed", some 0, some 600, none⟩ ∧
    (⟨1, 10, "completed", some 0, some 600, none⟩ : ScanRow) ∈
      reconcileScanStatus [10] 5 600 (fun i => if i = 1 then 3 else 0)
        [⟨1, 10, "running", some 0, none, none⟩]) ∧
    (reconcileOne [11] 5 600 (fun _ => 0) ⟨2, 11, "running", some 0, none, none⟩ =
      ⟨2, 11, "failed", some 0, some 600, some "Scan interrompido/sem catálogo gerado"⟩ ∧
    (⟨2, 11, "failed", some 0, some 600, some "Scan interrompido/sem catálogo gerado"⟩ :
        ScanRow) ∈
      reconcileScanStatus [11] 5 600 (fun _ => 0) [⟨2, 11, "running", some 0, none, none⟩]) :=
  ⟨(claim_C8 [10] 5 600 (fun i => if i = 1 then 3 else 0)
      [⟨1, 10, "running", some 0, none, none⟩] ⟨1, 10, "running", some 0, none, none⟩
      (by decide) (by decide)).1 (by decide),
   (claim_C8 [11] 5 600 (fun _ => 0)
      [⟨2, 11, "running", some 0, none, none⟩] ⟨2, 11, "running", some 0, none, none⟩
      (by decide) (by decide)).2.1 rfl⟩

/-- **C10 (counterexample).** The live retriever (`app/services/rag.py`,
wired through `app/api/rag.py`) takes the top `N×5` candidates when a
scope filter is set — not `N×20` — and has no fallback: with six
candidates of which only the sixth is in scope, it returns `[]` although a
scope-matching candidate existed, while the unreferenced
`app/application/services/rag.py` version returns that candidate. -/
theorem claim_C10_counterexample :
    searchEmbeddingsService
        [(⟨"table", 1, ⟨some (some 2), none⟩⟩, some 0),
         (⟨"table", 2, ⟨some (some 2), none⟩⟩, some 0),
         (⟨"table", 3, ⟨some (some 2), none⟩⟩, some 0),
         (⟨"table", 4, ⟨some (some 2), none⟩⟩, some 0),
         (⟨"table", 5, ⟨some (some 2), none⟩⟩, some 0),
         (⟨"table", 6, ⟨some (some 1), none⟩⟩, some 0)]
        1 1 (some ([1], [])) = [] ∧
    searchEmbeddingsApp
        [(⟨"table", 1, ⟨some (some 2), none⟩⟩, some 0),
         (⟨"table", 2, ⟨some (some 2), none⟩⟩, some 0),
         (⟨"table", 3, ⟨some (some 2), none⟩⟩, some 0),
         (⟨"table", 4, ⟨some (some 2), none⟩⟩, some 0),
         (⟨"table", 5, ⟨some (some 2), none⟩⟩, some 0),
         (⟨"table", 6, ⟨some (some 1), none⟩⟩, some 0)]
        (fun _ => ⟨none, none⟩) (fun _ => ⟨none, none⟩) [] 1 1 (some ([1], [])) =
      [⟨"table", 6, ⟨some (some 1), none⟩⟩] ∧
    (⟨"table", 6, ⟨some (some 1), none⟩⟩ : EmbItem) ∈
      ([(⟨"table", 1, ⟨some (some 2), none⟩⟩, some 0),
        (⟨"table", 2, ⟨some (some 2), none⟩⟩, some 0),
        (⟨"table", 3, ⟨some (some 2), none⟩⟩, some 0),
        (⟨"table", 4, ⟨some (some 2), none⟩⟩, some 0),
        (⟨"table", 5, ⟨some (some 2), none⟩⟩, some 0),
        (⟨"table", 6, ⟨some (some 1), none⟩⟩, some 0)] :
          List (EmbItem × Option Rat)).map (fun p => p.1) := by
  refine ⟨by decide, by decide, by decide⟩

/-- **C10 (amended).** The unreferenced `app/application/services` copy
behaves as claimed: with a scope filter set it takes the top `N×20`
candidates, scope-filters them, threshold-filters, and falls back to the
top `N` of the scope-matching candidate list when the threshold empties a
non-empty scoped set.  The live `app/services` copy instead takes the top
`N×5` and applies the threshold and scope filters with no fallback.  Both
return at most `N` results. -/
theorem claim_C10_amended :
    (∀ (all : List (EmbItem × Option Rat)) (minScore : Rat) (topK : Nat) (cs rs : List Nat),
      cs ≠ [] ∨ rs ≠ [] →
      searchEmbeddingsService all minScore topK (some (cs, rs)) =
        (scopeKeep cs rs (thresholdKeep minScore (all.take (topK * 5)))).take topK) ∧
    (∀ (all : List (EmbItem × Option Rat)) (rt rc : Nat → EmbMeta) (latest : List Nat)
        (minScore : Rat) (topK : Nat) (cs rs : List Nat),
      cs ≠ [] ∨ rs ≠ [] →
      thresholdKeep minScore (scopedCandidates rt rc latest cs rs (all.take (topK * 20))) = [] →
      scopedCandidates rt rc latest cs rs (all.take (topK * 20)) ≠ [] →
      searchEmbeddingsApp all rt rc latest minScore topK (some (cs, rs)) =
        ((scopedCandidates rt rc latest cs rs (all.take (topK * 20))).map
          (fun p => p.1)).take topK) ∧
    (∀ (all : List (EmbItem × Option Rat)) (minScore : Rat) (topK : Nat)
        (scope : Option (List Nat × List Nat)),
      (searchEmbeddingsService all minScore topK scope).length ≤ topK) ∧
    (∀ (all : List (EmbItem × Option Rat)) (rt rc : Nat → EmbMeta) (latest : List Nat)
        (minScore : Rat) (topK : Nat) (scope : Option (List Nat × List Nat)),
      (searchEmbeddingsApp all rt rc latest minScore topK scope).length ≤ topK) := by
  refine ⟨?_, ?_, ?_, ?_⟩
  · intro all minScore topK cs rs h
    simp only [searchEmbeddingsService, serviceFiltered]
    rw [if_pos h]
  · intro all rt rc latest minScore topK cs rs h hempty hne
    simp only [searchEmbeddingsApp, appFiltered]
    rw [if_pos h, if_pos ⟨hempty, hne⟩]
    simp [List.map_take, List.take_take]
  · intro all minScore topK scope
    exact List.length_take_le _ _
  · intro all rt rc latest minScore topK scope
    exact List.length_take_le _ _

/-- Witness for the amended C10: concrete instantiations of its four
parts, including the fallback firing on a single over-threshold in-scope
candidate. -/
theorem claim_C10_witness :
    searchEmbeddingsService [] 1 1 (some ([1], [])) =
      (scopeKeep [1] [] (thresholdKeep 1 (List.take (1 * 5) []))).take 1 ∧
    searchEmbeddingsApp [(⟨"table", 1, ⟨some (some 1), none⟩⟩, some 2)]
        (fun _ => ⟨none, none⟩) (fun _ => ⟨none, none⟩) [] 1 1 (some ([1], [])) =
      ((scopedCandidates (fun _ => ⟨none, none⟩) (fun _ => ⟨none, none⟩) [] [1] []
          (List.take (1 * 20) [(⟨"table", 1, ⟨some (some 1), none⟩⟩, some 2)])).map
        (fun p => p.1)).take 1 ∧
    (searchEmbeddingsService [] 1 1 none).length ≤ 1 ∧
    (searchEmbeddingsApp [] (fun _ => ⟨none, none⟩) (fun _ => ⟨none, none⟩) [] 1 1
      none).length ≤ 1 :=
  ⟨claim_C10_amended.1 [] 1 1 [1] [] (Or.inl (by decide)),
   claim_C10_amended.2.1 [(⟨"table", 1, ⟨some (some 1), none⟩⟩, some 2)]
     (fun _ => ⟨none, none⟩) (fun _ => ⟨none, none⟩) [] 1 1 [1] [] (Or.inl (by decide))
     (by decide) (by decide),
   claim_C10_amended.2.2.1 [] 1 1 none,
   claim_C10_amended.2.2.2 [] (fun _ => ⟨none, none⟩) (fun _ => ⟨none, none⟩) [] 1 1 none⟩

end AtlasRAG
